import Mathlib

/-!
Verification of the event-normalization and chronology-assembly pipeline of
this repository against its natural-language specification.

The Python modules under `backend/` are shallowly embedded:

* Python values that flow through the pipeline are modelled by the inductive
  type `PyVal` (`None`, strings, integers, lists, dicts); dicts are
  association lists with unique keys, which is how every dict in the pipeline
  is built.
* Pure Python functions become Lean functions.  Operations that can raise in
  Python (`event["k"]`, iterating a non-iterable, `str.strip` on a non-string,
  `datetime.strptime` on a malformed string) return `Except PyErr`.
* The external `dateparser.parse` call is opaque at this boundary (the spec
  treats the date parser as an external best-effort capability), so every
  function that uses it takes a parameter `dp : String -> Option Date`
  standing for `dateparser.parse` with the settings used at that call site.
  Likewise `json.loads` is the standard library's JSON parser and is passed
  as a parameter `jp : String -> Except Unit PyVal` (an `.error` result
  standing for `json.JSONDecodeError`), and the collected LLM response text
  is passed as an opaque string `r`.
* `sorted(xs, key=f)` is Python's stable ascending sort by key.  A stable
  sort by a total transitive key relation is extensionally unique, so it is
  modelled by `List.insertionSort`, whose sortedness, permutation and
  stability properties are proved below.
-/

/-- A Python value as it occurs in the pipeline: `None`, `str`, `int`,
`list`, `dict` (floats and booleans never influence the code under study). -/
inductive PyVal where
  | none
  | str (s : String)
  | int (n : Int)
  | list (xs : List PyVal)
  | dict (kvs : List (String × PyVal))

/-- A Python dict with string keys, as an association list (all dicts built by
the pipeline have unique keys). -/
abbrev PyDict := List (String × PyVal)

/-- A Python exception, as far as the pipeline distinguishes them.
`httpException s d` is `fastapi.HTTPException(status_code=s, detail=d)`. -/
inductive PyErr where
  | keyError (key : String)
  | valueError (msg : String)
  | typeError (msg : String)
  | attributeError (msg : String)
  | httpException (status : Nat) (detail : String)
deriving DecidableEq

instance {ε α} [DecidableEq ε] [DecidableEq α] : DecidableEq (Except ε α)
  | Except.ok x, Except.ok y =>
    if h : x = y then Decidable.isTrue (h ▸ rfl)
    else Decidable.isFalse fun hh => h (Except.ok.inj hh)
  | Except.error x, Except.error y =>
    if h : x = y then Decidable.isTrue (h ▸ rfl)
    else Decidable.isFalse fun hh => h (Except.error.inj hh)
  | Except.ok _, Except.error _ => Decidable.isFalse fun hh => Except.noConfusion hh
  | Except.error _, Except.ok _ => Decidable.isFalse fun hh => Except.noConfusion hh

/-- `d.get(key)` without default: first binding of `key`. -/
def dictFind? : PyDict → String → Option PyVal
  | [], _ => Option.none
  | (k, v) :: rest, key => if k = key then some v else dictFind? rest key

/-- Python `d.get(key, dflt)`. -/
def dictGet (d : PyDict) (key : String) (dflt : PyVal) : PyVal :=
  match dictFind? d key with
  | some v => v
  | Option.none => dflt

/-- Python `d[key]`: raises `KeyError` when the key is absent. -/
def dictItem (d : PyDict) (key : String) : Except PyErr PyVal :=
  match dictFind? d key with
  | some v => Except.ok v
  | Option.none => Except.error (PyErr.keyError key)

/-- Python `d[key] = v`: updates the binding in place, else appends. -/
def dictSet : PyDict → String → PyVal → PyDict
  | [], key, v => [(key, v)]
  | (k, w) :: rest, key, v =>
    if k = key then (key, v) :: rest else (k, w) :: dictSet rest key v

/-- Python `d.pop(key)` (the removal part; keys are unique). -/
def dictPop : PyDict → String → PyDict
  | [], _ => []
  | (k, w) :: rest, key => if k = key then rest else (k, w) :: dictPop rest key

/-- Python truthiness of a value. -/
def pyTruthy : PyVal → Bool
  | PyVal.none => false
  | PyVal.str s => !(s == "")
  | PyVal.int n => !(n == 0)
  | PyVal.list xs => !xs.isEmpty
  | PyVal.dict kvs => !kvs.isEmpty

mutual

/-- Python `repr` of a value (quote-escaping inside strings is not modelled;
no string the claims touch contains a quote). -/
def pyRepr : PyVal → String
  | PyVal.none => "None"
  | PyVal.str s => "\x27" ++ s ++ "\x27"
  | PyVal.int n => toString n
  | PyVal.list xs => "[" ++ pyReprList xs ++ "]"
  | PyVal.dict kvs => "\x7b" ++ pyReprPairs kvs ++ "\x7d"

/-- Comma-joined reprs of the elements of a list. -/
def pyReprList : List PyVal → String
  | [] => ""
  | [v] => pyRepr v
  | v :: vs => pyRepr v ++ ", " ++ pyReprList vs

/-- Comma-joined reprs of the bindings of a dict. -/
def pyReprPairs : List (String × PyVal) → String
  | [] => ""
  | [(k, v)] => "\x27" ++ k ++ "\x27: " ++ pyRepr v
  | (k, v) :: kvs => "\x27" ++ k ++ "\x27: " ++ pyRepr v ++ ", " ++ pyReprPairs kvs

end

/-- Python `str(v)`. -/
def pyStr : PyVal → String
  | PyVal.none => "None"
  | PyVal.str s => s
  | PyVal.int n => toString n
  | PyVal.list xs => "[" ++ pyReprList xs ++ "]"
  | PyVal.dict kvs => "\x7b" ++ pyReprPairs kvs ++ "\x7d"

/-- Structural equality of Python values (used for `set` membership; every
value put into a set by the pipeline is hashable, and for those `==` is
structural). -/
def pyValEq : PyVal → PyVal → Bool
  | PyVal.none, PyVal.none => true
  | PyVal.str a, PyVal.str b => a == b
  | PyVal.int a, PyVal.int b => a == b
  | _, _ => false

/-- Python `iter(v)` as a list of the yielded values: lists yield elements,
strings yield one-character strings, dicts yield keys; `None` and ints raise
`TypeError`. -/
def pyIter : PyVal → Except PyErr (List PyVal)
  | PyVal.list xs => Except.ok xs
  | PyVal.str s => Except.ok (s.toList.map fun c => PyVal.str (String.mk [c]))
  | PyVal.dict kvs => Except.ok (kvs.map fun kv => PyVal.str kv.1)
  | PyVal.none => Except.error (PyErr.typeError "NoneType object is not iterable")
  | PyVal.int _ => Except.error (PyErr.typeError "int object is not iterable")

/-- Whitespace for Python's default `str.strip` / `str.split`. -/
def pyIsSpace (c : Char) : Bool :=
  c = ' ' || c = '\t' || c = '\n' || c = '\r' || c = '\x0b' || c = '\x0c'

/-- Python `s.strip()` on a string. -/
def pyStrip (s : String) : String :=
  String.mk (((s.toList.dropWhile pyIsSpace).reverse.dropWhile pyIsSpace).reverse)

/-- Python `v.strip()`: `AttributeError` unless `v` is a string. -/
def pyStripV (v : PyVal) : Except PyErr String :=
  match v with
  | PyVal.str s => Except.ok (pyStrip s)
  | _ => Except.error (PyErr.attributeError "object has no attribute strip")

/-- Python `s.lower()` (ASCII case, which is all the pipeline compares). -/
def pyLower (s : String) : String :=
  String.mk (s.toList.map Char.toLower)

/-- Helper for `pySplitChar`. -/
def splitOnCharAux (sep : Char) : List Char → List Char → List (List Char)
  | [], acc => [acc.reverse]
  | c :: cs, acc =>
    if c = sep then acc.reverse :: splitOnCharAux sep cs [] else splitOnCharAux sep cs (c :: acc)

/-- Python `s.split(sep)` for a one-character separator. -/
def pySplitChar (s : String) (sep : Char) : List String :=
  (splitOnCharAux sep s.toList []).map String.mk

/-- Helper for `pySplitWs`. -/
def wsTokensAux : List Char → List Char → List (List Char)
  | [], acc => if acc.isEmpty then [] else [acc.reverse]
  | c :: cs, acc =>
    if pyIsSpace c then
      if acc.isEmpty then wsTokensAux cs [] else acc.reverse :: wsTokensAux cs []
    else wsTokensAux cs (c :: acc)

/-- Python `s.split()` (split on whitespace runs, no empty tokens). -/
def pySplitWs (s : String) : List String :=
  (wsTokensAux s.toList []).map String.mk

/-- Python `sep.join(xs)`. -/
def joinSep (sep : String) : List String → String
  | [] => ""
  | [x] => x
  | x :: xs => x ++ sep ++ joinSep sep xs

/-- Three-way comparison of characters by code point (Python compares
strings by code point). -/
def charCmp (a b : Char) : Ordering :=
  if a = b then Ordering.eq
  else if a.toNat < b.toNat then Ordering.lt
  else Ordering.gt

/-- Lexicographic three-way comparison of character lists: Python's string
comparison.  (Core's `String.lt` is extensionally the same order but its
decision procedure does not reduce in the kernel, so the order is spelled
out structurally here.) -/
def charListCmp : List Char → List Char → Ordering
  | [], [] => Ordering.eq
  | [], _ :: _ => Ordering.lt
  | _ :: _, [] => Ordering.gt
  | a :: as, b :: bs =>
    match charCmp a b with
    | Ordering.eq => charListCmp as bs
    | o => o

/-- Python's `<=>` on strings. -/
def strCmp (a b : String) : Ordering :=
  charListCmp a.toList b.toList

/-- Python's tuple comparison on `(str, str)` sort keys. -/
def keyCmp (a b : String × String) : Ordering :=
  match strCmp a.1 b.1 with
  | Ordering.eq => strCmp a.2 b.2
  | o => o

/-- Helper for `findCharIdx`. -/
def findCharIdxAux (c : Char) : List Char → Nat → Option Nat
  | [], _ => Option.none
  | x :: xs, i => if x = c then some i else findCharIdxAux c xs (i + 1)

/-- Python `s.find(c)` for a one-character needle, `none` for `-1`. -/
def findCharIdx (s : String) (c : Char) : Option Nat :=
  findCharIdxAux c s.toList 0

/-- Helper for `rfindCharIdx`. -/
def rfindCharIdxAux (c : Char) : List Char → Nat → Option Nat → Option Nat
  | [], _, best => best
  | x :: xs, i, best =>
    rfindCharIdxAux c xs (i + 1) (if x = c then some i else best)

/-- Python `s.rfind(c)` for a one-character needle, `none` for `-1`. -/
def rfindCharIdx (s : String) (c : Char) : Option Nat :=
  rfindCharIdxAux c s.toList 0 Option.none

/-- Python `s[i:j]` for `0 ≤ i ≤ j`. -/
def pySlice (s : String) (i j : Nat) : String :=
  String.mk ((s.toList.take j).drop i)

/-- Python `s.replace("\n", " ")` (one-character replacement). -/
def pyReplaceNl (s : String) : String :=
  String.mk (s.toList.map fun c => if c = '\n' then ' ' else c)

/-- A calendar date, the result of successful parsing. -/
structure Date where
  year : Nat
  month : Nat
  day : Nat
deriving DecidableEq

/-- Gregorian leap year. -/
def isLeap (y : Nat) : Bool :=
  y % 4 == 0 && (y % 100 != 0 || y % 400 == 0)

/-- Days in a month of the proleptic Gregorian calendar. -/
def daysInMonth (y m : Nat) : Nat :=
  if m = 2 then (if isLeap y then 29 else 28)
  else if m = 4 ∨ m = 6 ∨ m = 9 ∨ m = 11 then 30
  else 31

/-- The validity check `datetime(year, month, day)` performs. -/
def validDate (y m d : Nat) : Bool :=
  1 ≤ y && y ≤ 9999 && 1 ≤ m && m ≤ 12 && 1 ≤ d && d ≤ daysInMonth y m

/-- Rata-die style day number of a Gregorian date (all uses have `y ≥ 1`, so
every intermediate quantity is nonnegative and the rounding mode of integer
division is irrelevant).  Differences of this function model
`(datetime2 - datetime1).days`. -/
def dateToDays (dt : Date) : Int :=
  let y : Int := if dt.month ≤ 2 then (dt.year : Int) - 1 else (dt.year : Int)
  let era : Int := y / 400
  let yoe : Int := y - era * 400
  let mp : Int := ((dt.month : Int) + 9) % 12
  let doy : Int := (153 * mp + 2) / 5 + (dt.day : Int) - 1
  let doe : Int := yoe * 365 + yoe / 4 - yoe / 100 + doy
  era * 146097 + doe - 719468

/-- Left-pad a natural number with zeros to the given width, as Python's
`"%0Nd"` / `f"{n:0Nd}"` formatting does for nonnegative numbers. -/
def padNat (w : Nat) (n : Nat) : String :=
  let s := toString n
  if s.length < w then String.mk (List.replicate (w - s.length) '0') ++ s else s

/-- `datetime.strftime("%Y-%m-%d")`. -/
def formatDate (dt : Date) : String :=
  padNat 4 dt.year ++ "-" ++ padNat 2 dt.month ++ "-" ++ padNat 2 dt.day

/-! ### A model of `datetime.strptime` for the eleven formats the code uses

CPython's `_strptime` compiles a format into a regular expression:
`%Y` is `\d\d\d\d`, `%m` is `1[0-2]|0[1-9]|[1-9]`, `%d` is
`3[01]|[12]\d|0[1-9]|[1-9]`, `%B`/`%b` are alternations of the (distinct,
prefix-free) English month names, a literal whitespace run in the format
matches `\s+`, other literals match themselves, the whole string must be
consumed, and alternatives backtrack in the order written.  The matcher below
reproduces exactly that, and `datetime`'s calendar validation is applied to
the captured fields afterwards. -/

/-- One token of a `strptime` format string. -/
inductive FTok where
  | Y
  | m
  | d
  | B
  | b
  | lit (c : Char)
  | ws

/-- Fields captured so far by the `strptime` matcher. -/
structure Ymd where
  ys : Option Nat
  ms : Option Nat
  ds : Option Nat

/-- Numeric value of a digit character. -/
def digitVal (c : Char) : Nat := c.toNat - '0'.toNat

/-- First alternative that matched, for ordered regex alternation. -/
def orElseO (a b : Option Ymd) : Option Ymd :=
  match a with
  | some r => some r
  | Option.none => b

/-- Month-name lookup: English month names are prefix-free, so at most one
name matches at a given position (matching is case-insensitive). -/
def matchMonthName : List (List Char × Nat) → List Char → Option (Nat × List Char)
  | [], _ => Option.none
  | (nm, num) :: rest, cs =>
    if (cs.take nm.length).map Char.toLower = nm then some (num, cs.drop nm.length)
    else matchMonthName rest cs

/-- The `%B` table. -/
def fullMonths : List (List Char × Nat) :=
  [("january".toList, 1), ("february".toList, 2), ("march".toList, 3),
   ("april".toList, 4), ("may".toList, 5), ("june".toList, 6),
   ("july".toList, 7), ("august".toList, 8), ("september".toList, 9),
   ("october".toList, 10), ("november".toList, 11), ("december".toList, 12)]

/-- The `%b` table. -/
def abbrevMonths : List (List Char × Nat) :=
  [("jan".toList, 1), ("feb".toList, 2), ("mar".toList, 3), ("apr".toList, 4),
   ("may".toList, 5), ("jun".toList, 6), ("jul".toList, 7), ("aug".toList, 8),
   ("sep".toList, 9), ("oct".toList, 10), ("nov".toList, 11), ("dec".toList, 12)]

/-- Backtracking matcher for a token list against the remaining characters,
reproducing the compiled regex of CPython `_strptime` (alternatives tried in
the order of the alternation; the whole input must be consumed). -/
def matchToks : List FTok → List Char → Ymd → Option Ymd
  | [], cs, acc => if cs.isEmpty then some acc else Option.none
  | FTok.Y :: ts, cs, acc =>
    match cs with
    | c1 :: c2 :: c3 :: c4 :: rest =>
      if c1.isDigit && c2.isDigit && c3.isDigit && c4.isDigit then
        matchToks ts rest
          { acc with ys := some (1000 * digitVal c1 + 100 * digitVal c2 + 10 * digitVal c3 + digitVal c4) }
      else Option.none
    | _ => Option.none
  | FTok.m :: ts, cs, acc =>
    orElseO
      (match cs with
       | '1' :: x :: rest =>
         if '0' ≤ x && x ≤ '2' then matchToks ts rest { acc with ms := some (10 + digitVal x) }
         else Option.none
       | _ => Option.none)
      (orElseO
        (match cs with
         | '0' :: x :: rest =>
           if '1' ≤ x && x ≤ '9' then matchToks ts rest { acc with ms := some (digitVal x) }
           else Option.none
         | _ => Option.none)
        (match cs with
         | x :: rest =>
           if '1' ≤ x && x ≤ '9' then matchToks ts rest { acc with ms := some (digitVal x) }
           else Option.none
         | _ => Option.none))
  | FTok.d :: ts, cs, acc =>
    orElseO
      (match cs with
       | '3' :: x :: rest =>
         if '0' ≤ x && x ≤ '1' then matchToks ts rest { acc with ds := some (30 + digitVal x) }
         else Option.none
       | _ => Option.none)
      (orElseO
        (match cs with
         | x :: y :: rest =>
           if ('1' ≤ x && x ≤ '2') && y.isDigit then
             matchToks ts rest { acc with ds := some (10 * digitVal x + digitVal y) }
           else Option.none
         | _ => Option.none)
        (orElseO
          (match cs with
           | '0' :: x :: rest =>
             if '1' ≤ x && x ≤ '9' then matchToks ts rest { acc with ds := some (digitVal x) }
             else Option.none
           | _ => Option.none)
          (match cs with
           | x :: rest =>
             if '1' ≤ x && x ≤ '9' then matchToks ts rest { acc with ds := some (digitVal x) }
             else Option.none
           | _ => Option.none)))
  | FTok.B :: ts, cs, acc =>
    match matchMonthName fullMonths cs with
    | some (num, rest) => matchToks ts rest { acc with ms := some num }
    | Option.none => Option.none
  | FTok.b :: ts, cs, acc =>
    match matchMonthName abbrevMonths cs with
    | some (num, rest) => matchToks ts rest { acc with ms := some num }
    | Option.none => Option.none
  | FTok.lit c :: ts, cs, acc =>
    match cs with
    | x :: rest => if x = c then matchToks ts rest acc else Option.none
    | [] => Option.none
  | FTok.ws :: ts, cs, acc =>
    match cs with
    | x :: _ => if pyIsSpace x then matchToks ts (cs.dropWhile pyIsSpace) acc else Option.none
    | [] => Option.none

/-- `datetime.strptime(s, fmt)` for one of the listed formats (missing fields
default to year 1900, month 1, day 1, as in CPython; the calendar validity
check of the `datetime` constructor is applied at the end). -/
def strptimeFmt (toks : List FTok) (s : String) : Option Date :=
  match matchToks toks s.toList ⟨Option.none, Option.none, Option.none⟩ with
  | some r =>
    let y := r.ys.getD 1900
    let mo := r.ms.getD 1
    let dd := r.ds.getD 1
    if validDate y mo dd then some ⟨y, mo, dd⟩ else Option.none
  | Option.none => Option.none

/-- The `"%Y-%m-%d"` format. -/
def isoFmt : List FTok := [FTok.Y, FTok.lit '-', FTok.m, FTok.lit '-', FTok.d]

/-- `datetime.strptime(s, "%Y-%m-%d")`. -/
def parseISO (s : String) : Option Date := strptimeFmt isoFmt s

/-- The explicit format list of `standardize_date`, in source order:
`%Y-%m-%d`, `%Y/%m/%d`, `%d/%m/%Y`, `%m/%d/%Y`, `%d-%m-%Y`, `%m-%d-%Y`,
`%B %d, %Y`, `%d %B %Y`, `%b %d, %Y`, `%d %b %Y`, `%Y%m%d`. -/
def strptimeFormats : List (List FTok) :=
  [isoFmt,
   [FTok.Y, FTok.lit '/', FTok.m, FTok.lit '/', FTok.d],
   [FTok.d, FTok.lit '/', FTok.m, FTok.lit '/', FTok.Y],
   [FTok.m, FTok.lit '/', FTok.d, FTok.lit '/', FTok.Y],
   [FTok.d, FTok.lit '-', FTok.m, FTok.lit '-', FTok.Y],
   [FTok.m, FTok.lit '-', FTok.d, FTok.lit '-', FTok.Y],
   [FTok.B, FTok.ws, FTok.d, FTok.lit ',', FTok.ws, FTok.Y],
   [FTok.d, FTok.ws, FTok.B, FTok.ws, FTok.Y],
   [FTok.b, FTok.ws, FTok.d, FTok.lit ',', FTok.ws, FTok.Y],
   [FTok.d, FTok.ws, FTok.b, FTok.ws, FTok.Y],
   [FTok.Y, FTok.m, FTok.d]]

/-- Helper for `tryFormats`. -/
def tryFormatsAux : List (List FTok) → String → Option Date
  | [], _ => Option.none
  | f :: fs, s =>
    match strptimeFmt f s with
    | some d => some d
    | Option.none => tryFormatsAux fs s

/-- The `for fmt in formats: try strptime` loop of `standardize_date`. -/
def tryFormats (s : String) : Option Date := tryFormatsAux strptimeFormats s


/-! ## `src/chronology_generator.py` -/

namespace chronology_generator

/-- The short-circuit list of `standardize_date`:
`('null', 'none', '', 'n/a')`. -/
def nullStrings : List String := ["null", "none", "", "n/a"]

/-- Maximal runs of consecutive digits in a string (accumulator holds the
current run reversed). -/
def digitRunsAux : List Char → List Char → List (List Char)
  | [], acc => if acc.isEmpty then [] else [acc.reverse]
  | c :: cs, acc =>
    if c.isDigit then digitRunsAux cs (c :: acc)
    else if acc.isEmpty then digitRunsAux cs []
    else acc.reverse :: digitRunsAux cs []

/-- How `re.findall(r'(\d{4})|(\d{1,2})', ·)` chunks one maximal digit run:
at each position the regex first tries four consecutive digits, then greedily
one or two, so a run of three digits is split 2+1 and longer runs are chunked
four at a time. -/
def runChunks : List Char → List Nat
  | [] => []
  | [a] => [digitVal a]
  | [a, b] => [10 * digitVal a + digitVal b]
  | [a, b, c] => [10 * digitVal a + digitVal b, digitVal c]
  | a :: b :: c :: d :: rest =>
    (1000 * digitVal a + 100 * digitVal b + 10 * digitVal c + digitVal d) :: runChunks rest

/-- The token stream of `re.findall(r'(\d{4})|(\d{1,2})', s)`, each match
converted by `int(''.join(filter(None, part)))`.  Both alternatives of the
regex match digits only, so matches never span a non-digit: the stream is the
concatenation of the per-run chunkings of the maximal digit runs. -/
def digitChunks (cs : List Char) : List Nat :=
  ((digitRunsAux cs []).map runChunks).flatten

/-- The year/month/day assignment loop of the fallback heuristic: tokens are
scanned in order; the first unassigned-slot match wins, testing year, then
month, then day for each token. -/
def assignYMD : List Nat → Option Nat → Option Nat → Option Nat →
    Option Nat × Option Nat × Option Nat
  | [], y, m, d => (y, m, d)
  | num :: rest, y, m, d =>
    if y.isNone && (1900 ≤ num && num ≤ 2100) then assignYMD rest (some num) m d
    else if m.isNone && (1 ≤ num && num ≤ 12) then assignYMD rest y (some num) d
    else if d.isNone && (1 ≤ num && num ≤ 31) then assignYMD rest y m (some num)
    else assignYMD rest y m d

/-- The fallback heuristic of `standardize_date` (lines 68–85): requires at
least three regex matches, assigns year/month/day by `assignYMD`, and formats
with `f"{year:04d}-{month:02d}-{day:02d}"` (note: no calendar validation —
the guarding `try` can never fire, since the f-string itself cannot raise). -/
def dateHeuristic (s : String) : Option String :=
  let parts := digitChunks s.toList
  if parts.length ≥ 3 then
    match assignYMD parts Option.none Option.none Option.none with
    | (some y, some m, some d) => some (padNat 4 y ++ "-" ++ padNat 2 m ++ "-" ++ padNat 2 d)
    | _ => Option.none
  else Option.none

/-- `standardize_date` (lines 18–91).  `dp` stands for `dateparser.parse`
with the settings of this call site; the argument is the raw value
`event.get("date")` (signature says `Optional[str]`, but any value arrives
here, and the body starts with truthiness and `str(...)`). -/
def standardize_date (dp : String → Option Date) (date_str : PyVal) : Option String :=
  if !(pyTruthy date_str) || nullStrings.contains (pyLower (pyStr date_str)) then Option.none
  else
    let s := pyStrip (pyStr date_str)
    match dp s with
    | some d => some (formatDate d)
    | Option.none =>
      match tryFormats s with
      | some d => some (formatDate d)
      | Option.none => dateHeuristic s

/-- `extract_event_details` of `chronology_generator.py` (lines 93–104).
This version has no `try`: `.strip()` on a non-string description or party
raises, and `list(set(...))` deduplicates (Python's set iteration order is
arbitrary; first-occurrence order is used here, and no claim depends on the
order of this list). -/
def extract_event_details (dp : String → Option Date) (event : PyDict) :
    Except PyErr PyDict := do
  let date := standardize_date dp (dictGet event "date" PyVal.none)
  let descV := dictGet event "description" (PyVal.str "")
  let description ← pyStripV descV
  let partiesRaw ← pyIter (dictGet event "parties" (PyVal.list []))
  let stripped ← partiesRaw.mapM pyStripV
  let parties := stripped.foldl (fun acc p => if acc.contains p then acc else acc ++ [p]) []
  Except.ok
    [("date", match date with | some s => PyVal.str s | Option.none => PyVal.none),
     ("description", PyVal.str description),
     ("parties", PyVal.list (parties.map PyVal.str)),
     ("source_document", dictGet event "source_document" (PyVal.str "Unknown")),
     ("ai_observations", dictGet event "ai_observations" (PyVal.str ""))]

/-- The date component of the sort key of `sort_events`:
`date if date is not None else "9999-12-31"` for `date = event.get("date")`.
A non-string, non-`None` date would make Python's tuple comparison raise
`TypeError`; every theorem below quantifies over events whose date is a
string or `None`/absent, where this total model agrees with Python. -/
def sortKeyDate (e : PyDict) : String :=
  match dictFind? e "date" with
  | some (PyVal.str s) => s
  | _ => "9999-12-31"

/-- The source component of the sort key: `event.get("source_document", "")`
(same typing caveat as `sortKeyDate`). -/
def sortKeySrc (e : PyDict) : String :=
  match dictGet e "source_document" (PyVal.str "") with
  | PyVal.str s => s
  | _ => ""

/-- The key function `sort_key` of `sort_events`. -/
def sortKey (e : PyDict) : String × String := (sortKeyDate e, sortKeySrc e)

/-- Non-strict lexicographic order on Python `(str, str)` tuples. -/
def keyLe (a b : String × String) : Prop :=
  keyCmp a b ≠ Ordering.gt

instance (a b : String × String) : Decidable (keyLe a b) := by
  unfold keyLe
  infer_instance

/-- The order `sorted(events, key=sort_key)` sorts by. -/
def eventLe (a b : PyDict) : Prop := keyLe (sortKey a) (sortKey b)

instance (a b : PyDict) : Decidable (eventLe a b) := by
  unfold eventLe
  infer_instance

/-- `sort_events` (lines 106–114): Python's `sorted` is the stable ascending
sort by `sort_key`; a stable sort by a total transitive relation is
extensionally unique, so insertion sort is an exact model. -/
def sort_events (events : List PyDict) : List PyDict :=
  events.insertionSort eventLe

/-- The analysis dict `{"key_observations": [...], "potential_gaps": [...],
"recommendations": [...]}`. -/
structure Analysis where
  key_observations : List String
  potential_gaps : List String
  recommendations : List String
deriving DecidableEq

/-- `datetime.strptime(v, "%Y-%m-%d")` applied to a dict value: `TypeError`
for a non-string, `ValueError` when the string does not parse. -/
def strptimeV (v : PyVal) : Except PyErr Date :=
  match v with
  | PyVal.str s =>
    match parseISO s with
    | some d => Except.ok d
    | Option.none => Except.error (PyErr.valueError s)
  | _ => Except.error (PyErr.typeError "strptime argument must be str")

/-- The observation string appended for a detected gap. -/
def gapMsg (gapDays : Int) (dc dn : PyVal) : String :=
  "Gap of " ++ toString gapDays ++ " days between events on " ++ pyStr dc ++
    " and " ++ pyStr dn

/-- The gap-detection loop of `analyze_chronology` (lines 164–176) over the
adjacent pairs of the sorted list.  `current["date"]` is a direct key access;
`and` short-circuits, so `next_event["date"]` is only read when the first
date is truthy. -/
def gapLoop : List (PyDict × PyDict) → Except PyErr (List String)
  | [] => Except.ok []
  | (cur, nxt) :: rest =>
    match dictItem cur "date" with
    | Except.error e => Except.error e
    | Except.ok dc =>
      if pyTruthy dc then
        match dictItem nxt "date" with
        | Except.error e => Except.error e
        | Except.ok dn =>
          if pyTruthy dn then
            match strptimeV dc with
            | Except.error e => Except.error e
            | Except.ok cd =>
              match strptimeV dn with
              | Except.error e => Except.error e
              | Except.ok nd =>
                match gapLoop rest with
                | Except.error e => Except.error e
                | Except.ok more =>
                  Except.ok
                    ((if dateToDays nd - dateToDays cd > 30 then
                        [gapMsg (dateToDays nd - dateToDays cd) dc dn]
                      else []) ++ more)
          else
            match gapLoop rest with
            | Except.error e => Except.error e
            | Except.ok more => Except.ok more
      else
        match gapLoop rest with
        | Except.error e => Except.error e
        | Except.ok more => Except.ok more

/-- The missing-date comprehension `[e for e in events if not e["date"]]`
(line 179), with its direct `e["date"]` accesses. -/
def missingList : List PyDict → Except PyErr (List PyDict)
  | [] => Except.ok []
  | e :: rest =>
    match dictItem e "date" with
    | Except.error err => Except.error err
    | Except.ok d =>
      match missingList rest with
      | Except.error err => Except.error err
      | Except.ok more => Except.ok (if pyTruthy d then more else e :: more)

/-- `all_parties.update(iterable)`: each yielded element must be hashable
(lists and dicts raise `TypeError`); duplicates are collapsed.  Python's set
iteration order is arbitrary; insertion order is kept here, and the only
consumer sorts the collection before use. -/
def setAddAll (acc : List PyVal) : List PyVal → Except PyErr (List PyVal)
  | [] => Except.ok acc
  | v :: vs =>
    match v with
    | PyVal.list _ => Except.error (PyErr.typeError "unhashable type list")
    | PyVal.dict _ => Except.error (PyErr.typeError "unhashable type dict")
    | _ => setAddAll (if acc.any (pyValEq · v) then acc else acc ++ [v]) vs

/-- The party-collection loop of `analyze_chronology` (lines 186–188). -/
def collectParties : List PyVal → List PyDict → Except PyErr (List PyVal)
  | acc, [] => Except.ok acc
  | acc, e :: rest =>
    match pyIter (dictGet e "parties" (PyVal.list [])) with
    | Except.error err => Except.error err
    | Except.ok it =>
      match setAddAll acc it with
      | Except.error err => Except.error err
      | Except.ok acc2 => collectParties acc2 rest

/-- All elements as strings, or `none` if any is not a string. -/
def allStrings : List PyVal → Option (List String)
  | [] => some []
  | PyVal.str s :: vs =>
    match allStrings vs with
    | some ss => some (s :: ss)
    | Option.none => Option.none
  | _ :: _ => Option.none

/-- `', '.join(sorted(all_parties))`: Python raises `TypeError` either at
`sorted` (elements of mixed type) or at `join` (a non-string element); the
two are coalesced into one `TypeError` here.  All-string collections sort
lexicographically by code point, which `strCmp` decides. -/
def sortedJoinParties (ps : List PyVal) : Except PyErr String :=
  match allStrings ps with
  | some ss =>
    Except.ok (joinSep ", " (ss.insertionSort fun a b => strCmp a b ≠ Ordering.gt))
  | Option.none => Except.error (PyErr.typeError "parties must be strings")

/-- `analyze_chronology` (lines 152–195). -/
def analyze_chronology (events : List PyDict) : Except PyErr Analysis :=
  let sorted_events := sort_events events
  match gapLoop (sorted_events.zip sorted_events.tail) with
  | Except.error err => Except.error err
  | Except.ok potential_gaps =>
    match missingList events with
    | Except.error err => Except.error err
    | Except.ok missing_dates =>
      let recommendations :=
        if missing_dates.isEmpty then []
        else ["Found " ++ toString missing_dates.length ++
          " events with missing dates. Consider reviewing source documents."]
      match collectParties [] events with
      | Except.error err => Except.error err
      | Except.ok all_parties =>
        if all_parties.isEmpty then
          Except.ok ⟨[], potential_gaps, recommendations⟩
        else
          match sortedJoinParties all_parties with
          | Except.error err => Except.error err
          | Except.ok joined =>
            Except.ok ⟨["Key parties involved: " ++ joined], potential_gaps, recommendations⟩

/-- One table row of `generate_chronology_table` (lines 132–148). -/
def renderRow (event : PyDict) (include_observations : Bool) :
    Except PyErr String :=
  match pyIter (dictGet event "parties" (PyVal.list [])) with
  | Except.error err => Except.error err
  | Except.ok partiesIt =>
    let date := pyStr (dictGet event "date" (PyVal.str "N/A"))
    let description := pyReplaceNl (pyStr (dictGet event "description" (PyVal.str "")))
    let parties := joinSep ", "
      ((partiesIt.filter fun p => match p with | PyVal.none => false | _ => true).map pyStr)
    let source := pyStr (dictGet event "source_document" (PyVal.str "Unknown"))
    let row :=
      [if date = "None" then "N/A" else date,
       if description = "None" then "N/A" else description,
       if parties = "" then "N/A" else parties,
       if source = "None" then "N/A" else source]
    let row := row ++
      (if include_observations then
        [let obs := pyReplaceNl (pyStr (dictGet event "ai_observations" (PyVal.str "")))
         if obs = "None" then "N/A" else obs]
       else [])
    Except.ok ("| " ++ joinSep " | " row ++ " |\n")

/-- The row loop of `generate_chronology_table`. -/
def rowsFor : List PyDict → Bool → Except PyErr (List String)
  | [], _ => Except.ok []
  | e :: rest, incl =>
    match renderRow e incl with
    | Except.error err => Except.error err
    | Except.ok r =>
      match rowsFor rest incl with
      | Except.error err => Except.error err
      | Except.ok more => Except.ok (r :: more)

/-- Header and separator rows of the markdown table. -/
def tableHead (include_observations : Bool) : String :=
  let headers := ["Date", "Description", "Parties", "Source"] ++
    (if include_observations then ["AI Observations"] else [])
  "| " ++ joinSep " | " headers ++ " |\n" ++
    "|" ++ joinSep "|" (headers.map fun _ => "---") ++ "|\n"

/-- `generate_chronology_table` (lines 116–150): note that it re-sorts its
input with `sort_events` before rendering. -/
def generate_chronology_table (events : List PyDict) (include_observations : Bool) :
    Except PyErr String :=
  match rowsFor (sort_events events) include_observations with
  | Except.error err => Except.error err
  | Except.ok rows => Except.ok (tableHead include_observations ++ String.join rows)

end chronology_generator

/-! ## `src/llm_processor.py`

The module imports `extract_event_details` from `chronology_generator` but
then defines its own module-level `extract_event_details` (lines 301–327),
which rebinds the name: every call inside `llm_processor.py` resolves to the
local, lenient version modelled here. -/

namespace llm_processor

/-- `parse_date` (lines 280–298): `dateparser.parse` only (no format list, no
heuristic); `dp` stands for that call with this site's settings.  The guarded
`try` can only be left via the `return None` paths or a successful parse, so
the model is total. -/
def parse_date (dp : String → Option Date) (date_str : String) : Option String :=
  if date_str = "" then Option.none
  else
    match dp date_str with
    | some d => some (formatDate d)
    | Option.none => Option.none

/-- The "dead" event returned by the `except` branch of
`extract_event_details` (line 327). -/
def deadEvent : PyDict :=
  [("description", PyVal.str ""), ("date", PyVal.none),
   ("source_document", PyVal.str ""), ("parties", PyVal.list [])]

/-- `extract_event_details` of `llm_processor.py` (lines 301–327).  On a dict
argument every operation in the `try` body is total (`.get` never raises,
`str(...)` never raises, `.strip`/`.split` are applied to genuine strings,
and `parse_date` swallows its own errors), so the `except` branch returning
`deadEvent` is unreachable and the function is total.  The parties rule
(lines 309–313): key `parties`, else `participants`; a string is comma-split
with each piece stripped and falsy pieces dropped; a list is kept as-is
(elements are neither stringified nor trimmed); anything else becomes
empty. -/
def extract_event_details (dp : String → Option Date) (event : PyDict) : PyDict :=
  let description := pyStrip (pyStr (dictGet event "description" (PyVal.str "")))
  let date := parse_date dp (pyStr (dictGet event "date" (PyVal.str "")))
  let parties :=
    match dictGet event "parties" (dictGet event "participants" (PyVal.list [])) with
    | PyVal.str s =>
      (pySplitChar s ',').filterMap fun p =>
        let t := pyStrip p
        if t = "" then Option.none else some (PyVal.str t)
    | PyVal.list xs => xs
    | _ => []
  let source_document := pyStrip (pyStr (dictGet event "source_document" (dictGet event "source" (PyVal.str ""))))
  [("description", PyVal.str description),
   ("date", match date with | some s => PyVal.str s | Option.none => PyVal.none),
   ("source_document", PyVal.str source_document),
   ("parties", PyVal.list parties)]

/-- The per-record massaging of `extract_events` (lines 110–116): rename
`event` to `description` and `source` to `source_document` (a `pop` followed
by an assignment), then overwrite `source_document` with the document name. -/
def massageRecord (e : PyDict) (document_name : String) : PyDict :=
  let e :=
    match dictFind? e "event" with
    | some v => dictSet (dictPop e "event") "description" v
    | Option.none => e
  let e :=
    match dictFind? e "source" with
    | some v => dictSet (dictPop e "source") "source_document" v
    | Option.none => e
  dictSet e "source_document" (PyVal.str document_name)

/-- The standardization loop of `extract_events` (lines 107–127): non-dict
items are skipped, each dict is massaged and normalized, and the result is
kept exactly when `standardized_event.get("description")` is truthy (the
dict itself, having four keys, is always truthy). -/
def standardize_extracted (dp : String → Option Date) (document_name : String)
    (items : List PyVal) : List PyDict :=
  items.filterMap fun item =>
    match item with
    | PyVal.dict e =>
      let ev := extract_event_details dp (massageRecord e document_name)
      if pyTruthy (dictGet ev "description" PyVal.none) then some ev else Option.none
    | _ => Option.none

/-- The result dict of `create_chronology`:
`{"events": [...], "analysis": {...}}`. -/
structure CreateResult where
  events : List PyDict
  analysis : chronology_generator.Analysis

/-- The bracket-slicing step of `create_chronology` (lines 200–213) applied
to the stripped response text: take `find("[")` to `rfind("]")` inclusive;
failing that, wrap `find("{")` to `rfind("}")` in brackets; failing that,
there is no JSON to parse. -/
def ccSliced (response_text : String) : Option String :=
  match findCharIdx response_text '[', rfindCharIdx response_text ']' with
  | some i, some j => some (pySlice response_text i (j + 1))
  | _, _ =>
    match findCharIdx response_text '{', rfindCharIdx response_text '}' with
    | some i, some j => some ("[" ++ pySlice response_text i (j + 1) ++ "]")
    | _, _ => Option.none

/-- The cleanup of `create_chronology` (lines 216–217): replace newlines with
spaces, then re-join the whitespace-split tokens with single spaces. -/
def ccNormalized (t : String) : String :=
  joinSep " " (pySplitWs (pyReplaceNl t))

/-- The standardization loop of `create_chronology` (lines 226–233): each
dict record is normalized and kept exactly when its description is truthy. -/
def ccStandardized (dp : String → Option Date) (parsed : PyVal) : List PyDict :=
  let processed := match parsed with | PyVal.list xs => xs | v => [v]
  processed.filterMap fun item =>
    match item with
    | PyVal.dict e =>
      let ev := extract_event_details dp e
      if pyTruthy (dictGet ev "description" PyVal.none) then some ev else Option.none
    | _ => Option.none

/-- The reasoning-step outcome: `some st` when the response text slices to a
JSON candidate, `json.loads` succeeds and at least one record survives
standardization; `none` on every parse-failure path of the claim (no JSON
found, decode error, or no record with a truthy description). -/
def reasoningOutcome (dp : String → Option Date) (jp : String → Except Unit PyVal)
    (r : String) : Option (List PyDict) :=
  match ccSliced (pyStrip r) with
  | Option.none => Option.none
  | some t =>
    match jp (ccNormalized t) with
    | Except.error _ => Option.none
    | Except.ok parsed =>
      let st := ccStandardized dp parsed
      if st.isEmpty then Option.none else some st

/-- `create_chronology` (lines 152–250).  `r` is the collected response text
of the reasoning call, `jp` is `json.loads`.  The `try` body's only fallible
step is `analyze_chronology`; the `except` handlers rebuild
`{"events": events, "analysis": analyze_chronology(events)}`, whose own
`analyze_chronology` failure propagates out of the function. -/
def create_chronology (dp : String → Option Date) (jp : String → Except Unit PyVal)
    (r : String) (events : List PyDict) (case_description : String) :
    Except PyErr CreateResult :=
  let _ := case_description
  let body : Except PyErr CreateResult :=
    match ccSliced (pyStrip r) with
    | Option.none =>
      match chronology_generator.analyze_chronology events with
      | Except.error err => Except.error err
      | Except.ok a => Except.ok ⟨events, a⟩
    | some t =>
      match jp (ccNormalized t) with
      | Except.error _ =>
        match chronology_generator.analyze_chronology events with
        | Except.error err => Except.error err
        | Except.ok a => Except.ok ⟨events, a⟩
      | Except.ok parsed =>
        let st := ccStandardized dp parsed
        let st := if st.isEmpty then events else st
        match chronology_generator.analyze_chronology st with
        | Except.error err => Except.error err
        | Except.ok a => Except.ok ⟨st, a⟩
  match body with
  | Except.ok res => Except.ok res
  | Except.error _ =>
    match chronology_generator.analyze_chronology events with
    | Except.ok a => Except.ok ⟨events, a⟩
    | Except.error e => Except.error e

/-- `format_chronology` (lines 252–277): header, table (with the
`include_observations=True` default), then one section per non-empty
analysis category. -/
def format_chronology (c : CreateResult) : Except PyErr String :=
  match chronology_generator.generate_chronology_table c.events true with
  | Except.error err => Except.error err
  | Except.ok tbl =>
  let base := "# Case Chronology\n\n" ++ "## Timeline of Events\n\n" ++ tbl
  let s1 :=
    if c.analysis.key_observations.isEmpty then ""
    else "\n## Key Observations\n\n" ++
      String.join (c.analysis.key_observations.map fun o => "- " ++ o ++ "\n")
  let s2 :=
    if c.analysis.potential_gaps.isEmpty then ""
    else "\n## Timeline Gaps\n\n" ++
      String.join (c.analysis.potential_gaps.map fun g => "- " ++ g ++ "\n")
  let s3 :=
    if c.analysis.recommendations.isEmpty then ""
    else "\n## Recommendations\n\n" ++
      String.join (c.analysis.recommendations.map fun g => "- " ++ g ++ "\n")
  Except.ok (base ++ s1 ++ s2 ++ s3)

end llm_processor

/-! ## `routers/chronology.py` -/

/-- The request body `ChronologyRequest` of `models/schemas.py`. -/
structure ChronologyRequest where
  case_description : String
  documents_text : List String
  document_names : List String

/-- The response `ChronologyResponse` (events kept as the dicts the processor
produced; pydantic re-validation is outside the modelled core). -/
structure ChronologyResponse where
  events : List PyDict
  markdown_output : String

/-- `str(e)` for the exceptions the route can see; Starlette's
`HTTPException.__str__` renders as `f"{status_code}: {detail}"`. -/
def pyErrStr : PyErr → String
  | PyErr.keyError k => "\x27" ++ k ++ "\x27"
  | PyErr.valueError m => m
  | PyErr.typeError m => m
  | PyErr.attributeError m => m
  | PyErr.httpException status detail => toString status ++ ": " ++ detail

/-- The document loop of the route (lines 19–26): skip documents whose text
strips to empty, call `extract_events` (modelled by the opaque total `ex`,
since `extract_events` catches all its own exceptions and returns a list) and
extend the accumulator when the result is non-empty. -/
def accumulateEvents (ex : String → String → List PyDict)
    (docs : List (String × String)) : List PyDict :=
  docs.foldl
    (fun acc td =>
      if pyStrip td.1 = "" then acc
      else
        let events := ex td.1 td.2
        if events.isEmpty then acc else acc ++ events)
    []

/-- The `/chronology/generate` route (lines 10–44).  The `try` block
contains both the 400 "no events" `HTTPException` raise and the rest of the
pipeline; the blanket `except Exception` catches every exception — including
that 400 — and re-raises it as a 500 wrapping `str(e)`. -/
def generate_chronology_route (ex : String → String → List PyDict)
    (dp : String → Option Date) (jp : String → Except Unit PyVal) (r : String)
    (request : ChronologyRequest) : Except PyErr ChronologyResponse :=
  let body : Except PyErr ChronologyResponse := do
    let all_events := accumulateEvents ex (request.documents_text.zip request.document_names)
    if all_events.isEmpty then
      Except.error (PyErr.httpException 400
        "No events could be extracted from any of the documents.")
    else do
      let chronology ← llm_processor.create_chronology dp jp r all_events
        request.case_description
      let markdown_output ← llm_processor.format_chronology chronology
      Except.ok ⟨all_events, markdown_output⟩
  match body with
  | Except.ok resp => Except.ok resp
  | Except.error e =>
    Except.error (PyErr.httpException 500
      ("An error occurred while processing the documents: " ++ pyErrStr e))

/-! ## `ChronologyGenerator.generate_chronology` (lines 206–239) -/

namespace chronology_generator

/-- The result dict of `ChronologyGenerator.generate_chronology`. -/
structure CGResult where
  events : List PyDict
  analysis : Analysis
  markdown_table : String
  errors : List String

/-- The `[extract_event_details(event) for event in events]` comprehension,
left to right, first exception propagating. -/
def processAll (dp : String → Option Date) : List PyDict → Except PyErr (List PyDict)
  | [] => Except.ok []
  | e :: rest => do
    let ev ← extract_event_details dp e
    let more ← processAll dp rest
    Except.ok (ev :: more)

/-- The `[event for event in processed_events if event['date'] is not None]`
comprehension, with its direct key accesses. -/
def filterDated : List PyDict → Except PyErr (List PyDict)
  | [] => Except.ok []
  | e :: rest => do
    let d ← dictItem e "date"
    let more ← filterDated rest
    Except.ok (match d with | PyVal.none => more | _ => e :: more)

/-- `ChronologyGenerator.generate_chronology` (lines 206–239): normalizes
with this module's `extract_event_details`, then **removes every event whose
standardized date is `None`**, sorts, analyzes and renders the survivors. -/
def ChronologyGenerator_generate_chronology (dp : String → Option Date)
    (events : List PyDict) : Except PyErr CGResult := do
  let processed_events ← processAll dp events
  let valid_events ← filterDated processed_events
  let sorted_events := sort_events valid_events
  let analysis ← analyze_chronology sorted_events
  let markdown_table ← generate_chronology_table sorted_events true
  Except.ok ⟨sorted_events, analysis, markdown_table,
    if valid_events.length = processed_events.length then []
    else ["Some events had invalid dates"]⟩

end chronology_generator

/-! ## Canonical-event predicates and specification-side definitions -/

namespace chronology_generator

/-- Date field of a canonical event: present, and either `None` or a string
that is empty or a valid `YYYY-MM-DD` date. -/
def wfDate (e : PyDict) : Bool :=
  match dictFind? e "date" with
  | some PyVal.none => true
  | some (PyVal.str s) => s == "" || (parseISO s).isSome
  | _ => false

/-- Source field of a canonical event: absent or a string. -/
def wfSrc (e : PyDict) : Bool :=
  match dictFind? e "source_document" with
  | Option.none => true
  | some (PyVal.str _) => true
  | _ => false

/-- Is the value a Python string? -/
def isStrV : PyVal → Bool
  | PyVal.str _ => true
  | _ => false

/-- Parties field of a canonical event: absent, a string, or a list of
strings. -/
def wfParties (e : PyDict) : Bool :=
  match dictFind? e "parties" with
  | Option.none => true
  | some (PyVal.str _) => true
  | some (PyVal.list xs) => xs.all isStrV
  | _ => false

/-- A canonical event as far as the analyzer, sorter and renderer are
concerned.  On such events the total sort-key model agrees with Python
(no cross-type comparisons) and `analyze_chronology` cannot raise. -/
def wfEvent (e : PyDict) : Bool :=
  wfDate e && wfSrc e && wfParties e

/-- What the gap loop contributes for one adjacent pair of canonical events:
an observation exactly when both dates are present, truthy and more than 30
days apart. -/
def gapPairObs (c n : PyDict) : Option String :=
  match dictFind? c "date", dictFind? n "date" with
  | some (PyVal.str s), some (PyVal.str t) =>
    if s = "" ∨ t = "" then Option.none
    else
      match parseISO s, parseISO t with
      | some cd, some nd =>
        if dateToDays nd - dateToDays cd > 30 then
          some (gapMsg (dateToDays nd - dateToDays cd) (PyVal.str s) (PyVal.str t))
        else Option.none
      | _, _ => Option.none
  | _, _ => Option.none

end chronology_generator

namespace chronology_generator

/-- Rendering with the rows in exactly the order passed — what claim C7
asserts `generate_chronology_table` does.  Modelled from the spec's words
("Row order in the table must exactly match the order of `sortedEvents`
passed in (renderer does not re-sort)"): identical to
`generate_chronology_table` except that the `sort_events` call is absent. -/
def inputOrderTable (events : List PyDict) (include_observations : Bool) :
    Except PyErr String :=
  match rowsFor events include_observations with
  | Except.error err => Except.error err
  | Except.ok rows => Except.ok (tableHead include_observations ++ String.join rows)

/-- Numeric value of a digit run. -/
def runVal (r : List Char) : Nat :=
  r.foldl (fun acc c => 10 * acc + digitVal c) 0

/-- The fallback heuristic as claim C9 words it (spec §4.1 step 3): "scan
the string for all runs of 1–4 digits" — the maximal digit runs of length at
most four — then classify a 4-digit run in [1900,2100] as the year, a
remaining run in [1,12] as the month and a remaining run in [1,31] as the
day, succeeding only if all three are found.  This is the
specification-side definition compared against the source's `dateHeuristic`;
they differ on digit runs of length three or more than four, which the
regex `(\d{4})|(\d{1,2})` splits into smaller chunks. -/
def spec_fallback_heuristic (s : String) : Option String :=
  let parts := ((digitRunsAux s.toList []).filter fun r => r.length ≤ 4).map runVal
  match assignYMD parts Option.none Option.none Option.none with
  | (some y, some m, some d) => some (padNat 4 y ++ "-" ++ padNat 2 m ++ "-" ++ padNat 2 d)
  | _ => Option.none

end chronology_generator

/-- `dateparser.parse` failing on every input (the claims that quantify over
the external parser are instantiated with this for witnesses and
counterexamples). -/
def dpFail : String → Option Date := fun _ => Option.none

/-- `json.loads` raising `JSONDecodeError` on every input. -/
def jpFail : String → Except Unit PyVal := fun _ => Except.error ()

/-- Concrete canonical event with a `None` date (for C2's counterexample). -/
def sortUndatedEvent : PyDict :=
  [("description", PyVal.str "undated event"), ("date", PyVal.none),
   ("source_document", PyVal.str "a.pdf"), ("parties", PyVal.list [])]

/-- Concrete canonical event dated exactly at the `"9999-12-31"` sentinel
(a syntactically valid ISO date, for C2's counterexample). -/
def sortSentinelEvent : PyDict :=
  [("description", PyVal.str "dated event"), ("date", PyVal.str "9999-12-31"),
   ("source_document", PyVal.str "b.pdf"), ("parties", PyVal.list [])]

/-- Raw record whose `parties` value is the string of C5's scenario. -/
def partiesStrEvent : PyDict :=
  [("description", PyVal.str "meeting"), ("parties", PyVal.str "Alice, Bob, Alice")]

/-- Canonical events 30 and then 31 days apart (C6's witness). -/
def gapEvA : PyDict :=
  [("description", PyVal.str "first"), ("date", PyVal.str "2022-01-01"),
   ("source_document", PyVal.str "d.pdf"), ("parties", PyVal.list [])]

/-- Second event of C6's witness, 30 days after the first. -/
def gapEvB : PyDict :=
  [("description", PyVal.str "second"), ("date", PyVal.str "2022-01-31"),
   ("source_document", PyVal.str "d.pdf"), ("parties", PyVal.list [])]

/-- Third event of C6's witness, 31 days after the second. -/
def gapEvC : PyDict :=
  [("description", PyVal.str "third"), ("date", PyVal.str "2022-03-03"),
   ("source_document", PyVal.str "d.pdf"), ("parties", PyVal.list [])]

/-- Early-dated event for C7's counterexample. -/
def tblEvEarly : PyDict :=
  [("description", PyVal.str "early"), ("date", PyVal.str "2020-01-01"),
   ("source_document", PyVal.str "x.pdf"), ("parties", PyVal.list [])]

/-- Late-dated event for C7's counterexample. -/
def tblEvLate : PyDict :=
  [("description", PyVal.str "late"), ("date", PyVal.str "2021-01-01"),
   ("source_document", PyVal.str "x.pdf"), ("parties", PyVal.list [])]

/-- Raw record with a non-empty description and no date (C8's
counterexample: `ChronologyGenerator.generate_chronology` drops it). -/
def undatedMeeting : PyDict :=
  [("description", PyVal.str "Meeting held"), ("date", PyVal.none)]

/-- Event mapping with a `"date"` key holding a parseable date (C10). -/
def c10GoodEvent : PyDict :=
  [("date", PyVal.str "2020-01-01"), ("description", PyVal.str "ok")]

/-- Event mapping with a `"date"` key holding a truthy, unparseable string
(C10's counterexample to "under the precondition it never raises"). -/
def c10BadDateEvent : PyDict :=
  [("date", PyVal.str "zzz"), ("description", PyVal.str "bad")]

/-- Event mapping with no `"date"` key at all (C10's `KeyError` input). -/
def c10NoDateEvent : PyDict :=
  [("description", PyVal.str "no date key")]

/-- A fully canonical event (C4's witness). -/
def canonEvent : PyDict :=
  [("description", PyVal.str "kickoff"), ("date", PyVal.str "2022-01-05"),
   ("source_document", PyVal.str "doc.pdf"), ("parties", PyVal.list [PyVal.str "Ann"])]

/-- The request of C3's failing input: one non-empty document. -/
def reqOneDoc : ChronologyRequest :=
  ⟨"case description", ["some document text"], ["doc.pdf"]⟩

/-- The condition of claim C1 on the raw record: the date field is absent,
or the external parser fails on the `str()` of its value. -/
def dateAbsentOrUnparsable (dp : String → Option Date) (e : PyDict) : Prop :=
  dictFind? e "date" = Option.none ∨
    ∃ v, dictFind? e "date" = some v ∧ dp (pyStr v) = Option.none

/-! ## Order lemmas for the sort relation -/

theorem char_toNat_inj {a b : Char} (h : a.toNat = b.toNat) : a = b := by
  have hv : a.val = b.val := UInt32.ext h
  cases a
  cases b
  cases hv
  rfl

theorem charCmp_eq_iff {a b : Char} : charCmp a b = Ordering.eq ↔ a = b := by
  unfold charCmp
  split_ifs with h1 h2 <;> simp_all

theorem charCmp_lt_iff {a b : Char} : charCmp a b = Ordering.lt ↔ a.toNat < b.toNat := by
  unfold charCmp
  split_ifs with h1 h2 <;> simp_all

theorem charCmp_gt_iff {a b : Char} : charCmp a b = Ordering.gt ↔ b.toNat < a.toNat := by
  unfold charCmp
  split_ifs with h1 h2
  · subst h1
    simp
  · simp only [reduceCtorEq, false_iff]
    exact Nat.lt_asymm h2
  · have : b.toNat < a.toNat :=
      Nat.lt_of_le_of_ne (Nat.le_of_not_lt h2) fun he => h1 (char_toNat_inj he).symm
    simp [this]

theorem charListCmp_eq_iff : ∀ {as bs : List Char}, charListCmp as bs = Ordering.eq ↔ as = bs
  | [], [] => by simp [charListCmp]
  | [], _ :: _ => by simp [charListCmp]
  | _ :: _, [] => by simp [charListCmp]
  | a :: as, b :: bs => by
    cases hc : charCmp a b with
    | eq =>
      have hab : a = b := charCmp_eq_iff.mp hc
      subst hab
      simp [charListCmp, hc, charListCmp_eq_iff]
    | lt =>
      have hab : a ≠ b := fun h => by simp [charCmp_eq_iff.mpr h] at hc
      simp [charListCmp, hc, hab]
    | gt =>
      have hab : a ≠ b := fun h => by simp [charCmp_eq_iff.mpr h] at hc
      simp [charListCmp, hc, hab]

theorem charListCmp_swap :
    ∀ {as bs : List Char}, charListCmp as bs = Ordering.lt ↔ charListCmp bs as = Ordering.gt
  | [], [] => by simp [charListCmp]
  | [], _ :: _ => by simp [charListCmp]
  | _ :: _, [] => by simp [charListCmp]
  | a :: as, b :: bs => by
    cases hc : charCmp a b with
    | eq =>
      have hab : a = b := charCmp_eq_iff.mp hc
      subst hab
      simp [charListCmp, hc, charListCmp_swap]
    | lt =>
      have hba : charCmp b a = Ordering.gt := charCmp_gt_iff.mpr (charCmp_lt_iff.mp hc)
      simp [charListCmp, hc, hba]
    | gt =>
      have hba : charCmp b a = Ordering.lt := charCmp_lt_iff.mpr (charCmp_gt_iff.mp hc)
      simp [charListCmp, hc, hba]

theorem charListCmp_lt_trans :
    ∀ {as bs cs : List Char}, charListCmp as bs = Ordering.lt →
      charListCmp bs cs = Ordering.lt → charListCmp as cs = Ordering.lt
  | [], _ :: _, _ :: _, _, _ => by simp [charListCmp]
  | [], [], _, h, _ => by simp [charListCmp] at h
  | [], _ :: _, [], _, h => by simp [charListCmp] at h
  | _ :: _, [], _, h, _ => by simp [charListCmp] at h
  | _ :: _, _ :: _, [], _, h => by simp [charListCmp] at h
  | a :: as, b :: bs, c :: cs, h1, h2 => by
    cases hab : charCmp a b with
    | gt => simp [charListCmp, hab] at h1
    | eq =>
      have : a = b := charCmp_eq_iff.mp hab
      subst this
      cases hbc : charCmp a c with
      | gt => simp [charListCmp, hbc] at h2
      | lt => simp [charListCmp, hbc]
      | eq =>
        simp only [charListCmp, hab, hbc] at h1 h2 ⊢
        exact charListCmp_lt_trans h1 h2
    | lt =>
      cases hbc : charCmp b c with
      | gt => simp [charListCmp, hbc] at h2
      | eq =>
        have : b = c := charCmp_eq_iff.mp hbc
        subst this
        simp [charListCmp, hab]
      | lt =>
        have hac : charCmp a c = Ordering.lt :=
          charCmp_lt_iff.mpr (Nat.lt_trans (charCmp_lt_iff.mp hab) (charCmp_lt_iff.mp hbc))
        simp [charListCmp, hac]

theorem string_toList_inj {a b : String} (h : a.toList = b.toList) : a = b := by
  cases a
  cases b
  exact congrArg String.mk h

theorem strCmp_eq_iff {a b : String} : strCmp a b = Ordering.eq ↔ a = b := by
  unfold strCmp
  constructor
  · intro h
    exact string_toList_inj (charListCmp_eq_iff.mp h)
  · intro h
    subst h
    exact charListCmp_eq_iff.mpr rfl

theorem strCmp_swap {a b : String} :
    strCmp a b = Ordering.lt ↔ strCmp b a = Ordering.gt :=
  charListCmp_swap

theorem strCmp_lt_trans {a b c : String} (h1 : strCmp a b = Ordering.lt)
    (h2 : strCmp b c = Ordering.lt) : strCmp a c = Ordering.lt :=
  charListCmp_lt_trans h1 h2

theorem keyCmp_eq_iff {a b : String × String} : keyCmp a b = Ordering.eq ↔ a = b := by
  unfold keyCmp
  cases h1 : strCmp a.1 b.1 with
  | eq =>
    have e1 : a.1 = b.1 := strCmp_eq_iff.mp h1
    constructor
    · intro h2
      exact Prod.ext e1 (strCmp_eq_iff.mp h2)
    · intro h
      subst h
      exact strCmp_eq_iff.mpr rfl
  | lt =>
    simp only [reduceCtorEq, false_iff]
    intro h
    subst h
    simp [strCmp_eq_iff.mpr rfl] at h1
  | gt =>
    simp only [reduceCtorEq, false_iff]
    intro h
    subst h
    simp [strCmp_eq_iff.mpr rfl] at h1

theorem keyCmp_swap {a b : String × String} :
    keyCmp a b = Ordering.lt ↔ keyCmp b a = Ordering.gt := by
  unfold keyCmp
  cases h1 : strCmp a.1 b.1 with
  | eq =>
    have e1 : a.1 = b.1 := strCmp_eq_iff.mp h1
    rw [e1] at h1 ⊢
    rw [show strCmp b.1 b.1 = Ordering.eq from strCmp_eq_iff.mpr rfl]
    exact strCmp_swap
  | lt =>
    have h2 : strCmp b.1 a.1 = Ordering.gt := strCmp_swap.mp h1
    simp [h1, h2]
  | gt =>
    have h2 : strCmp b.1 a.1 = Ordering.lt := strCmp_swap.mpr h1
    simp [h1, h2]

theorem keyCmp_lt_trans {a b c : String × String} (h1 : keyCmp a b = Ordering.lt)
    (h2 : keyCmp b c = Ordering.lt) : keyCmp a c = Ordering.lt := by
  unfold keyCmp at *
  cases hab : strCmp a.1 b.1 with
  | gt => simp [hab] at h1
  | eq =>
    have e1 : a.1 = b.1 := strCmp_eq_iff.mp hab
    rw [hab] at h1
    cases hbc : strCmp b.1 c.1 with
    | gt => simp [hbc] at h2
    | lt => simp [e1, hbc]
    | eq =>
      rw [hbc] at h2
      have e2 : b.1 = c.1 := strCmp_eq_iff.mp hbc
      rw [e1, e2, strCmp_eq_iff.mpr rfl]
      exact strCmp_lt_trans h1 h2
  | lt =>
    cases hbc : strCmp b.1 c.1 with
    | gt => simp [hbc] at h2
    | eq =>
      have e2 : b.1 = c.1 := strCmp_eq_iff.mp hbc
      rw [← e2, hab]
    | lt => simp [strCmp_lt_trans hab hbc]

namespace chronology_generator

theorem keyLe_total (a b : String × String) : keyLe a b ∨ keyLe b a := by
  unfold keyLe
  cases h : keyCmp a b with
  | lt => exact Or.inl (by simp [h])
  | eq => exact Or.inl (by simp [h])
  | gt =>
    have : keyCmp b a = Ordering.lt := keyCmp_swap.mpr h
    exact Or.inr (by simp [this])

theorem keyLe_trans {a b c : String × String} (h1 : keyLe a b) (h2 : keyLe b c) :
    keyLe a c := by
  unfold keyLe at *
  cases hab : keyCmp a b with
  | gt => exact absurd hab h1
  | eq =>
    have : a = b := keyCmp_eq_iff.mp hab
    subst this
    exact h2
  | lt =>
    cases hbc : keyCmp b c with
    | gt => exact absurd hbc h2
    | eq =>
      have : b = c := keyCmp_eq_iff.mp hbc
      subst this
      simp [hab]
    | lt => simp [keyCmp_lt_trans hab hbc]

instance : IsTotal PyDict eventLe where
  total a b := keyLe_total (sortKey a) (sortKey b)

instance : IsTrans PyDict eventLe where
  trans _ _ _ h1 h2 := keyLe_trans h1 h2

end chronology_generator

/-! ## Stability of the sort, and totality of the analyzer on canonical events -/

namespace chronology_generator

theorem orderedInsert_filter_key (k : String × String) (a : PyDict) :
    ∀ l : List PyDict,
      (List.orderedInsert eventLe a l).filter (fun e => decide (sortKey e = k)) =
        if sortKey a = k then a :: l.filter (fun e => decide (sortKey e = k))
        else l.filter (fun e => decide (sortKey e = k))
  | [] => by
    by_cases hk : sortKey a = k <;> simp [List.orderedInsert, List.filter, hk]
  | b :: bs => by
    by_cases hab : eventLe a b
    · have hins : List.orderedInsert eventLe a (b :: bs) = a :: b :: bs := by
        simp [List.orderedInsert, hab]
      rw [hins]
      by_cases hk : sortKey a = k <;> simp [List.filter_cons, hk]
    · have hins : List.orderedInsert eventLe a (b :: bs) =
          b :: List.orderedInsert eventLe a bs := by
        simp [List.orderedInsert, hab]
      rw [hins]
      by_cases hk : sortKey a = k
      · have hbk : ¬(sortKey b = k) := by
          intro hbk
          exact hab (by
            unfold eventLe keyLe
            rw [keyCmp_eq_iff.mpr (hk.trans hbk.symm)]
            simp)
        simp [List.filter_cons, hbk, hk, orderedInsert_filter_key k a bs]
      · by_cases hbk : sortKey b = k <;>
          simp [List.filter_cons, hbk, hk, orderedInsert_filter_key k a bs]

/-- Stability of `sort_events`: for every key, the subsequence of events
carrying that key is exactly the input's subsequence with that key. -/
theorem sort_events_filter_key (l : List PyDict) (k : String × String) :
    (sort_events l).filter (fun e => decide (sortKey e = k)) =
      l.filter (fun e => decide (sortKey e = k)) := by
  unfold sort_events
  induction l with
  | nil => rfl
  | cons e es ih =>
    show (List.orderedInsert eventLe e (List.insertionSort eventLe es)).filter _ = _
    rw [orderedInsert_filter_key]
    by_cases hk : sortKey e = k <;> simp [List.filter_cons, hk, ih]

theorem gapLoop_ok :
    ∀ ps : List (PyDict × PyDict), (∀ p ∈ ps, wfDate p.1 ∧ wfDate p.2) →
      gapLoop ps = Except.ok (ps.filterMap fun p => gapPairObs p.1 p.2)
  | [], _ => rfl
  | (cur, nxt) :: rest, h => by
    obtain ⟨hw1, hw2⟩ := h (cur, nxt) (List.mem_cons_self _ _)
    have hrest := gapLoop_ok rest fun q hq => h q (List.mem_cons_of_mem _ hq)
    unfold wfDate at hw1 hw2
    cases hd1 : dictFind? cur "date" with
    | none => rw [hd1] at hw1; simp at hw1
    | some v1 =>
      rw [hd1] at hw1
      cases v1 with
      | str s =>
        cases hd2 : dictFind? nxt "date" with
        | none => rw [hd2] at hw2; simp at hw2
        | some v2 =>
          rw [hd2] at hw2
          cases v2 with
          | str t =>
            by_cases hs : s = ""
            · subst hs
              simp [gapLoop, dictItem, hd1, hd2, pyTruthy, hrest,
                List.filterMap_cons, gapPairObs]
            · have hps : (parseISO s).isSome := by
                simp [hs] at hw1
                exact hw1
              obtain ⟨cd, hcd⟩ := Option.isSome_iff_exists.mp hps
              by_cases ht : t = ""
              · subst ht
                simp [gapLoop, dictItem, hd1, hd2, pyTruthy, hs, hrest,
                  List.filterMap_cons, gapPairObs]
              · have hpt : (parseISO t).isSome := by
                  simp [ht] at hw2
                  exact hw2
                obtain ⟨nd, hnd⟩ := Option.isSome_iff_exists.mp hpt
                by_cases hgap : dateToDays nd - dateToDays cd > 30
                · simp [gapLoop, dictItem, hd1, hd2, pyTruthy, hs, ht, strptimeV,
                    hcd, hnd, hrest, List.filterMap_cons, gapPairObs, hgap]
                · simp [gapLoop, dictItem, hd1, hd2, pyTruthy, hs, ht, strptimeV,
                    hcd, hnd, hrest, List.filterMap_cons, gapPairObs, hgap]
          | none =>
            by_cases hs : s = "" <;>
              simp [gapLoop, dictItem, hd1, hd2, pyTruthy, hrest,
                List.filterMap_cons, gapPairObs, hs]
          | int _ => simp at hw2
          | list _ => simp at hw2
          | dict _ => simp at hw2
      | none =>
        simp [gapLoop, dictItem, hd1, pyTruthy, hrest, List.filterMap_cons, gapPairObs]
      | int _ => simp at hw1
      | list _ => simp at hw1
      | dict _ => simp at hw1

theorem missingList_ok :
    ∀ l : List PyDict, (∀ e ∈ l, wfDate e) →
      ∃ ms, missingList l = Except.ok ms
  | [], _ => ⟨[], rfl⟩
  | e :: rest, h => by
    have hw := h e (List.mem_cons_self _ _)
    obtain ⟨ms, hms⟩ := missingList_ok rest fun q hq => h q (List.mem_cons_of_mem _ hq)
    unfold wfDate at hw
    cases hd : dictFind? e "date" with
    | none => rw [hd] at hw; simp at hw
    | some v =>
      exact ⟨if pyTruthy v then ms else e :: ms, by simp [missingList, dictItem, hd, hms]⟩

theorem setAddAll_ok :
    ∀ (it acc : List PyVal), (∀ v ∈ it, isStrV v) → (∀ v ∈ acc, isStrV v) →
      ∃ r, setAddAll acc it = Except.ok r ∧ ∀ v ∈ r, isStrV v
  | [], acc, _, hacc => ⟨acc, rfl, hacc⟩
  | v :: vs, acc, hit, hacc => by
    have hv := hit v (List.mem_cons_self _ _)
    have hvs := fun w hw => hit w (List.mem_cons_of_mem _ hw)
    cases v with
    | str s =>
      by_cases hmem : acc.any (pyValEq · (PyVal.str s))
      · obtain ⟨r, hr, hstr⟩ := setAddAll_ok vs acc hvs hacc
        exact ⟨r, by simp [setAddAll, hmem, hr], hstr⟩
      · obtain ⟨r, hr, hstr⟩ := setAddAll_ok vs (acc ++ [PyVal.str s]) hvs (by
          intro w hw
          rcases List.mem_append.mp hw with hw | hw
          · exact hacc w hw
          · simp at hw
            subst hw
            rfl)
        exact ⟨r, by simp [setAddAll, hmem, hr], hstr⟩
    | none => simp [isStrV] at hv
    | int _ => simp [isStrV] at hv
    | list _ => simp [isStrV] at hv
    | dict _ => simp [isStrV] at hv

theorem collectParties_ok :
    ∀ (l : List PyDict) (acc : List PyVal), (∀ e ∈ l, wfParties e) →
      (∀ v ∈ acc, isStrV v) →
      ∃ ps, collectParties acc l = Except.ok ps ∧ ∀ v ∈ ps, isStrV v
  | [], acc, _, hacc => ⟨acc, rfl, hacc⟩
  | e :: rest, acc, h, hacc => by
    have hw := h e (List.mem_cons_self _ _)
    have hrest := fun q hq => h q (List.mem_cons_of_mem _ hq)
    unfold wfParties at hw
    cases hp : dictFind? e "parties" with
    | none =>
      obtain ⟨r, hr, hstr⟩ := setAddAll_ok [] acc (by simp) hacc
      obtain ⟨ps, hps, hpstr⟩ := collectParties_ok rest r hrest hstr
      exact ⟨ps, by simp [collectParties, dictGet, hp, pyIter, hr, hps], hpstr⟩
    | some v =>
      rw [hp] at hw
      cases v with
      | str s =>
        obtain ⟨r, hr, hstr⟩ := setAddAll_ok (s.toList.map fun c => PyVal.str (String.mk [c]))
          acc (by
            intro w hw2
            simp at hw2
            obtain ⟨c, _, hc⟩ := hw2
            subst hc
            rfl) hacc
        simp only [String.toList] at hr
        obtain ⟨ps, hps, hpstr⟩ := collectParties_ok rest r hrest hstr
        exact ⟨ps, by simp [collectParties, dictGet, hp, pyIter, hr, hps], hpstr⟩
      | list xs =>
        obtain ⟨r, hr, hstr⟩ :=
          setAddAll_ok xs acc (fun w hw2 => List.all_eq_true.mp hw w hw2) hacc
        obtain ⟨ps, hps, hpstr⟩ := collectParties_ok rest r hrest hstr
        exact ⟨ps, by simp [collectParties, dictGet, hp, pyIter, hr, hps], hpstr⟩
      | none => simp at hw
      | int _ => simp at hw
      | dict _ => simp at hw

end chronology_generator

namespace chronology_generator

theorem allStrings_ok :
    ∀ ps : List PyVal, (∀ v ∈ ps, isStrV v) → ∃ ss, allStrings ps = some ss
  | [], _ => ⟨[], rfl⟩
  | v :: vs, h => by
    have hv := h v (List.mem_cons_self _ _)
    obtain ⟨ss, hss⟩ := allStrings_ok vs fun w hw => h w (List.mem_cons_of_mem _ hw)
    cases v with
    | str s => exact ⟨s :: ss, by simp [allStrings, hss]⟩
    | none => simp [isStrV] at hv
    | int _ => simp [isStrV] at hv
    | list _ => simp [isStrV] at hv
    | dict _ => simp [isStrV] at hv

theorem sortedJoinParties_ok (ps : List PyVal) (h : ∀ v ∈ ps, isStrV v) :
    ∃ s, sortedJoinParties ps = Except.ok s := by
  obtain ⟨ss, hss⟩ := allStrings_ok ps h
  refine ⟨joinSep ", " (ss.insertionSort fun a b => strCmp a b ≠ Ordering.gt), ?_⟩
  unfold sortedJoinParties
  rw [hss]

theorem wfEvent_split {e : PyDict} (h : wfEvent e) :
    wfDate e ∧ wfSrc e ∧ wfParties e := by
  unfold wfEvent at h
  simp only [Bool.and_eq_true] at h
  exact ⟨h.1.1, h.1.2, h.2⟩

theorem mem_sort_events {e : PyDict} {l : List PyDict} (h : e ∈ sort_events l) : e ∈ l :=
  (List.mem_insertionSort eventLe).mp h

/-- On canonical events `analyze_chronology` returns an `Analysis`, and its
gap list is exactly the per-adjacent-pair contribution over the sorted
input. -/
theorem analyze_ok_of_wf (l : List PyDict) (h : ∀ e ∈ l, wfEvent e) :
    ∃ a, analyze_chronology l = Except.ok a ∧
      a.potential_gaps =
        ((sort_events l).zip (sort_events l).tail).filterMap fun p => gapPairObs p.1 p.2 := by
  have h1 : ∀ e ∈ l, wfDate e := fun e he => (wfEvent_split (h e he)).1
  have h3 : ∀ e ∈ l, wfParties e := fun e he => (wfEvent_split (h e he)).2.2
  have hpairs : ∀ p ∈ (sort_events l).zip (sort_events l).tail,
      wfDate p.1 ∧ wfDate p.2 := by
    intro p hp
    obtain ⟨x, y⟩ := p
    obtain ⟨hx, hy⟩ := List.of_mem_zip hp
    exact ⟨h1 x (mem_sort_events hx),
      h1 y (mem_sort_events (List.mem_of_mem_tail hy))⟩
  have hgap := gapLoop_ok _ hpairs
  obtain ⟨ms, hms⟩ := missingList_ok l h1
  obtain ⟨ps, hps, hstr⟩ := collectParties_ok l [] h3 (by simp)
  by_cases hemp : ps.isEmpty
  · refine ⟨⟨[], ((sort_events l).zip (sort_events l).tail).filterMap
      (fun p => gapPairObs p.1 p.2),
      if ms.isEmpty then []
      else ["Found " ++ toString ms.length ++
        " events with missing dates. Consider reviewing source documents."]⟩, ?_, rfl⟩
    simp only [analyze_chronology, hgap, hms, hps, hemp]
    simp
  · obtain ⟨j, hj⟩ := sortedJoinParties_ok ps hstr
    refine ⟨⟨["Key parties involved: " ++ j],
      ((sort_events l).zip (sort_events l).tail).filterMap (fun p => gapPairObs p.1 p.2),
      if ms.isEmpty then []
      else ["Found " ++ toString ms.length ++
        " events with missing dates. Consider reviewing source documents."]⟩, ?_, rfl⟩
    simp only [analyze_chronology, hgap, hms, hps, hemp, hj]
    simp

theorem renderRow_ok (e : PyDict) (incl : Bool) (h : wfParties e) :
    ∃ s, renderRow e incl = Except.ok s := by
  have hok : ∃ it, pyIter (dictGet e "parties" (PyVal.list [])) = Except.ok it := by
    unfold wfParties at h
    cases hp : dictFind? e "parties" with
    | none => exact ⟨[], by simp [dictGet, hp, pyIter]⟩
    | some v =>
      rw [hp] at h
      cases v with
      | str s =>
        exact ⟨s.toList.map fun c => PyVal.str (String.mk [c]),
          by simp [dictGet, hp, pyIter]⟩
      | list xs => exact ⟨xs, by simp [dictGet, hp, pyIter]⟩
      | none => simp at h
      | int _ => simp at h
      | dict _ => simp at h
  obtain ⟨it, hit⟩ := hok
  unfold renderRow
  rw [hit]
  exact ⟨_, rfl⟩

theorem rowsFor_ok :
    ∀ l : List PyDict, ∀ incl : Bool, (∀ e ∈ l, wfParties e) →
      ∃ rows, rowsFor l incl = Except.ok rows ∧ rows.length = l.length
  | [], _, _ => ⟨[], rfl, rfl⟩
  | e :: rest, incl, h => by
    obtain ⟨r, hr⟩ := renderRow_ok e incl (h e (List.mem_cons_self _ _))
    obtain ⟨rows, hrows, hlen⟩ :=
      rowsFor_ok rest incl fun q hq => h q (List.mem_cons_of_mem _ hq)
    exact ⟨r :: rows, by simp [rowsFor, hr, hrows], by simp [hlen]⟩

end chronology_generator

/-! ## Claim theorems -/

/-- C1: for every raw event mapping, the normalizer
(`llm_processor.extract_event_details`) terminates without raising — its
result is always a four-field canonical event (the `except`/`deadEvent`
branch is unreachable because every operation of the body is total on a
mapping) — and when the date field is absent, or the external date parser
fails on the `str()` of its value, the resulting event's date is `None`. -/
theorem C1_normalizer_total_and_date_null (dp : String → Option Date) (e : PyDict)
    (h : dateAbsentOrUnparsable dp e) :
    (llm_processor.extract_event_details dp e).map Prod.fst =
      ["description", "date", "source_document", "parties"] ∧
    dictFind? (llm_processor.extract_event_details dp e) "date" = some PyVal.none := by
  refine ⟨rfl, ?_⟩
  unfold llm_processor.extract_event_details
  rcases h with h | ⟨v, hv, hdp⟩
  · simp [llm_processor.parse_date, dictFind?, dictGet, h, pyStr]
  · by_cases hs : pyStr v = "" <;>
      simp [llm_processor.parse_date, dictFind?, dictGet, hv, hdp, hs]

/-- C1 witness: the external parser failing on `canonEvent`'s date string
leaves the normalized event undated. -/
theorem C1_witness :
    dateAbsentOrUnparsable dpFail canonEvent ∧
    dictFind? (llm_processor.extract_event_details dpFail canonEvent) "date" =
      some PyVal.none :=
  ⟨Or.inr ⟨PyVal.str "2022-01-05", rfl, rfl⟩,
   (C1_normalizer_total_and_date_null dpFail canonEvent
      (Or.inr ⟨PyVal.str "2022-01-05", rfl, rfl⟩)).2⟩

/-- C5 counterexample: the record of the spec's scenario 5,
`parties = "Alice, Bob, Alice"`, normalizes (through the pipeline's
`llm_processor.extract_event_details`) to the list
`["Alice", "Bob", "Alice"]` — "Alice" occurs twice, so the result is *not*
deduplicated to exactly `{"Alice", "Bob"}` as the claim states. -/
theorem C5_counterexample :
    dictFind? (llm_processor.extract_event_details dpFail partiesStrEvent) "parties" =
      some (PyVal.list [PyVal.str "Alice", PyVal.str "Bob", PyVal.str "Alice"]) := rfl

/-- C5 (amended): the pipeline normalizer accepts key `parties`, else
`participants`; a single-string value is split on commas with each piece
trimmed and empty pieces dropped; a list value is kept as-is (elements are
neither stringified nor trimmed); anything else yields empty; and the result
is **not** deduplicated, so `"Alice, Bob, Alice"` normalizes to
`["Alice", "Bob", "Alice"]`. -/
theorem C5_parties_rule_amended (dp : String → Option Date) (e : PyDict) :
    (∀ s, dictGet e "parties" (dictGet e "participants" (PyVal.list [])) = PyVal.str s →
      dictFind? (llm_processor.extract_event_details dp e) "parties" =
        some (PyVal.list ((pySplitChar s ',').filterMap fun p =>
          if pyStrip p = "" then Option.none else some (PyVal.str (pyStrip p))))) ∧
    (∀ xs, dictGet e "parties" (dictGet e "participants" (PyVal.list [])) = PyVal.list xs →
      dictFind? (llm_processor.extract_event_details dp e) "parties" =
        some (PyVal.list xs)) ∧
    ((∀ s, dictGet e "parties" (dictGet e "participants" (PyVal.list [])) ≠ PyVal.str s) →
      (∀ xs, dictGet e "parties" (dictGet e "participants" (PyVal.list [])) ≠ PyVal.list xs) →
      dictFind? (llm_processor.extract_event_details dp e) "parties" =
        some (PyVal.list [])) := by
  refine ⟨?_, ?_, ?_⟩
  · intro s hs
    unfold llm_processor.extract_event_details
    rw [hs]
    simp [dictFind?]
  · intro xs hxs
    unfold llm_processor.extract_event_details
    rw [hxs]
    simp [dictFind?]
  · intro hns hnl
    unfold llm_processor.extract_event_details
    cases hv : dictGet e "parties" (dictGet e "participants" (PyVal.list [])) with
    | str s => exact absurd hv (hns s)
    | list xs => exact absurd hv (hnl xs)
    | none => simp [dictFind?]
    | int n => simp [dictFind?]
    | dict kvs => simp [dictFind?]

/-- C5 witness: the string case of the amended rule applied to the
`"Alice, Bob, Alice"` record. -/
theorem C5_witness :
    dictGet partiesStrEvent "parties" (dictGet partiesStrEvent "participants"
      (PyVal.list [])) = PyVal.str "Alice, Bob, Alice" ∧
    dictFind? (llm_processor.extract_event_details dpFail partiesStrEvent) "parties" =
      some (PyVal.list ((pySplitChar "Alice, Bob, Alice" ',').filterMap fun p =>
        if pyStrip p = "" then Option.none else some (PyVal.str (pyStrip p)))) :=
  ⟨rfl, (C5_parties_rule_amended dpFail partiesStrEvent).1 "Alice, Bob, Alice" rfl⟩

/-- C9 counterexample: on `"1999 123"` (which the explicit format list
rejects, with the external parser instantiated as failing) the code's
fallback returns `"1999-12-03"` — the regex `(\d{4})|(\d{1,2})` splits the
3-digit run `123` into `12` and `3`, which become month and day — while the
claim's "runs of 1–4 digits" heuristic sees the tokens `1999` and `123` and
returns null, `123` being neither a month nor a day. -/
theorem C9_counterexample :
    chronology_generator.standardize_date dpFail (PyVal.str "1999 123") =
      some "1999-12-03" ∧
    chronology_generator.spec_fallback_heuristic "1999 123" = Option.none ∧
    tryFormats "1999 123" = Option.none ∧
    dpFail "1999 123" = Option.none :=
  ⟨rfl, rfl, rfl, rfl⟩

/-- C9 (amended): for every date string that is truthy, not a null-word, and
handled by neither the external parser nor the explicit format-pattern list,
`standardize_date` applies the fallback heuristic `dateHeuristic`: the
string's digits are chunked as by `re.findall(r'(\d{4})|(\d{1,2})')` (four
consecutive digits, else greedily one or two — splitting runs of three or of
more than four digits), at least three chunks are required, and chunks are
classified in scan order — the first in [1900,2100] as year, then the first
remaining in [1,12] as month, then the first remaining in [1,31] as day —
returning `YYYY-MM-DD` only if all three are assigned and null otherwise. -/
theorem C9_fallback_heuristic_amended (dp : String → Option Date) (s : String)
    (h1 : pyTruthy (PyVal.str s) = true)
    (h2 : chronology_generator.nullStrings.contains (pyLower s) = false)
    (h3 : dp (pyStrip s) = Option.none)
    (h4 : tryFormats (pyStrip s) = Option.none) :
    chronology_generator.standardize_date dp (PyVal.str s) =
      chronology_generator.dateHeuristic (pyStrip s) := by
  have h2m : ¬(pyLower s ∈ chronology_generator.nullStrings) := by simpa using h2
  unfold chronology_generator.standardize_date
  simp [pyStr, h1, h2m, h3, h4]

/-- C9 witness: the amended heuristic on `"1999 123"`. -/
theorem C9_witness :
    pyTruthy (PyVal.str "1999 123") = true ∧
    chronology_generator.nullStrings.contains (pyLower "1999 123") = false ∧
    dpFail (pyStrip "1999 123") = Option.none ∧
    tryFormats (pyStrip "1999 123") = Option.none ∧
    chronology_generator.standardize_date dpFail (PyVal.str "1999 123") =
      chronology_generator.dateHeuristic (pyStrip "1999 123") :=
  ⟨rfl, rfl, rfl, rfl,
   C9_fallback_heuristic_amended dpFail "1999 123" rfl rfl rfl rfl⟩

/-- C2 counterexample: the input holds a dated event (date exactly the
`"9999-12-31"` sentinel, a syntactically valid ISO date) and an undated
event; after sorting, the undated event appears *before* the dated one,
because both share the sentinel date key and the undated event's source
document sorts first.  This refutes "every event with date = null appears
after every event with a non-null date". -/
theorem C2_counterexample :
    chronology_generator.sort_events [sortSentinelEvent, sortUndatedEvent] =
      [sortUndatedEvent, sortSentinelEvent] ∧
    dictFind? sortUndatedEvent "date" = some PyVal.none ∧
    dictFind? sortSentinelEvent "date" = some (PyVal.str "9999-12-31") :=
  ⟨rfl, rfl, rfl⟩

/-- C2 (amended): for every list of canonical events, `sort_events` orders
them ascending lexicographically by the key pair (date with null replaced by
`"9999-12-31"`, source document) — the output is sorted by that key and is a
permutation of the input; the sort is stable (for every key, the subsequence
of events with that key equals the input's); re-sorting the sorted output
yields the same list; and every event with date = null appears after every
event whose date is lexicographically *below* the `"9999-12-31"` sentinel
(an event dated at or above the sentinel can legitimately follow an undated
one, as the counterexample shows). -/
theorem C2_sort_events_amended (l : List PyDict)
    (hwf : l.all chronology_generator.wfEvent = true) :
    List.Sorted chronology_generator.eventLe (chronology_generator.sort_events l) ∧
    (chronology_generator.sort_events l).Perm l ∧
    chronology_generator.sort_events (chronology_generator.sort_events l) =
      chronology_generator.sort_events l ∧
    (∀ k, (chronology_generator.sort_events l).filter
        (fun e => decide (chronology_generator.sortKey e = k)) =
      l.filter fun e => decide (chronology_generator.sortKey e = k)) ∧
    List.Pairwise
      (fun a b => dictFind? a "date" = some PyVal.none →
        ∀ s, dictFind? b "date" = some (PyVal.str s) →
          strCmp s "9999-12-31" = Ordering.lt → False)
      (chronology_generator.sort_events l) := by
  have _ := hwf
  refine ⟨List.sorted_insertionSort chronology_generator.eventLe l,
    List.perm_insertionSort chronology_generator.eventLe l,
    (List.sorted_insertionSort chronology_generator.eventLe l).insertionSort_eq,
    chronology_generator.sort_events_filter_key l, ?_⟩
  refine (List.sorted_insertionSort chronology_generator.eventLe l).imp ?_
  intro a b hab hnull s hbs hlt
  have hka : chronology_generator.sortKeyDate a = "9999-12-31" := by
    simp [chronology_generator.sortKeyDate, hnull]
  have hkb : chronology_generator.sortKeyDate b = s := by
    simp [chronology_generator.sortKeyDate, hbs]
  have hgt : strCmp (chronology_generator.sortKeyDate a)
      (chronology_generator.sortKeyDate b) = Ordering.gt := by
    rw [hka, hkb]
    exact strCmp_swap.mp hlt
  apply hab
  simp [keyCmp, chronology_generator.sortKey, hgt]

/-- C2 witness: a concrete two-event list on which re-sorting the sorted
output yields the same order. -/
theorem C2_witness :
    ([gapEvB, gapEvA].all chronology_generator.wfEvent = true) ∧
    chronology_generator.sort_events (chronology_generator.sort_events [gapEvB, gapEvA]) =
      chronology_generator.sort_events [gapEvB, gapEvA] :=
  ⟨rfl, (C2_sort_events_amended [gapEvB, gapEvA] rfl).2.2.1⟩

/-- C6: for every canonically-shaped, already-sorted event list,
`analyze_chronology` succeeds and its gap list is exactly the
per-adjacent-pair contribution `gapPairObs`: one observation — naming both
dates and the gap length — for each adjacent pair of dated events more than
30 days apart, none for pairs 30 days or fewer apart, and nothing for pairs
in which either event is undated. -/
theorem C6_gap_detection (l : List PyDict)
    (hwf : l.all chronology_generator.wfEvent = true)
    (hsorted : chronology_generator.sort_events l = l) :
    ∃ a, chronology_generator.analyze_chronology l = Except.ok a ∧
      a.potential_gaps = (l.zip l.tail).filterMap fun p =>
        chronology_generator.gapPairObs p.1 p.2 := by
  obtain ⟨a, ha, hg⟩ :=
    chronology_generator.analyze_ok_of_wf l (List.all_eq_true.mp hwf)
  rw [hsorted] at hg
  exact ⟨a, ha, hg⟩

/-- C6 witness: three dated events — 30 days apart, then 31 days apart —
produce exactly one gap observation, for the 31-day pair. -/
theorem C6_witness :
    ([gapEvA, gapEvB, gapEvC].all chronology_generator.wfEvent = true) ∧
    chronology_generator.sort_events [gapEvA, gapEvB, gapEvC] = [gapEvA, gapEvB, gapEvC] ∧
    chronology_generator.analyze_chronology [gapEvA, gapEvB, gapEvC] =
      Except.ok ⟨[], ["Gap of 31 days between events on 2022-01-31 and 2022-03-03"], []⟩ := by
  obtain ⟨a, ha, _⟩ := C6_gap_detection [gapEvA, gapEvB, gapEvC] rfl rfl
  have hr : chronology_generator.analyze_chronology [gapEvA, gapEvB, gapEvC] =
      Except.ok ⟨[], ["Gap of 31 days between events on 2022-01-31 and 2022-03-03"], []⟩ :=
    rfl
  rw [ha] at hr
  exact ⟨rfl, rfl, ha.trans hr⟩

/-- C10 counterexample: both events carry a `"date"` key (the claim's
precondition), yet `analyze_chronology` raises — the second date is a
truthy, unparseable string, so `datetime.strptime` fails with `ValueError`.
This refutes "under the precondition it never raises". -/
theorem C10_counterexample :
    (dictFind? c10GoodEvent "date").isSome = true ∧
    (dictFind? c10BadDateEvent "date").isSome = true ∧
    chronology_generator.analyze_chronology [c10GoodEvent, c10BadDateEvent] =
      Except.error (PyErr.valueError "zzz") :=
  ⟨rfl, rfl, rfl⟩

/-- C10 (amended): `analyze_chronology` reads `event["date"]` by direct key
access, so an event mapping without a `"date"` key makes it raise `KeyError`
instead of returning an `Analysis`; it is total under the strengthened
precondition that every event is canonically shaped — `"date"` present and
`None`, empty, or a valid `YYYY-MM-DD` string (direct key access and
`strptime` are the reasons mere key presence is not enough), with
well-typed source and parties fields. -/
theorem C10_analyze_totality_amended :
    chronology_generator.analyze_chronology [c10NoDateEvent] =
      Except.error (PyErr.keyError "date") ∧
    (∀ l : List PyDict, l.all chronology_generator.wfEvent = true →
      ∃ a, chronology_generator.analyze_chronology l = Except.ok a) := by
  refine ⟨rfl, ?_⟩
  intro l hl
  obtain ⟨a, ha, _⟩ :=
    chronology_generator.analyze_ok_of_wf l (List.all_eq_true.mp hl)
  exact ⟨a, ha⟩

/-- C10 witness: a canonical one-event list on which the analyzer returns an
`Analysis`. -/
theorem C10_witness :
    ([c10GoodEvent].all chronology_generator.wfEvent = true) ∧
    chronology_generator.analyze_chronology [c10GoodEvent] = Except.ok ⟨[], [], []⟩ := by
  obtain ⟨a, ha⟩ := C10_analyze_totality_amended.2 [c10GoodEvent] rfl
  have hr : chronology_generator.analyze_chronology [c10GoodEvent] =
      Except.ok ⟨[], [], []⟩ := rfl
  rw [ha] at hr
  exact ⟨rfl, ha.trans hr⟩

/-- C4: for every non-empty list of canonical events, when the reasoning
call's output cannot be parsed as a well-formed list of event-like records —
no JSON bracket slice is found, `json.loads` fails, or no parsed record
survives standardization with a non-empty description (`reasoningOutcome`
is `none`) — `create_chronology` returns the original pre-reasoning event
list together with its analysis instead of raising. -/
theorem C4_reasoning_fallback (dp : String → Option Date)
    (jp : String → Except Unit PyVal) (r : String) (events : List PyDict) (cd : String)
    (hwf : events.all chronology_generator.wfEvent = true)
    (hne : events.isEmpty = false)
    (hfail : llm_processor.reasoningOutcome dp jp r = Option.none) :
    ∃ a, chronology_generator.analyze_chronology events = Except.ok a ∧
      llm_processor.create_chronology dp jp r events cd = Except.ok ⟨events, a⟩ := by
  have _ := hne
  obtain ⟨a, ha, _⟩ :=
    chronology_generator.analyze_ok_of_wf events (List.all_eq_true.mp hwf)
  refine ⟨a, ha, ?_⟩
  unfold llm_processor.create_chronology
  unfold llm_processor.reasoningOutcome at hfail
  cases hsl : llm_processor.ccSliced (pyStrip r) with
  | none => simp [hsl, ha]
  | some t =>
    simp only [hsl] at hfail
    cases hjp : jp (llm_processor.ccNormalized t) with
    | error u => simp [hsl, hjp, ha]
    | ok parsed =>
      simp only [hjp] at hfail
      have hemp : (llm_processor.ccStandardized dp parsed).isEmpty = true := by
        by_contra hni
        simp [hni] at hfail
      simp [hsl, hjp, hemp, ha]

/-- C4 witness: a response without any JSON, a failing `json.loads`, and one
canonical event: the result is that event list with its analysis. -/
theorem C4_witness :
    ([canonEvent].all chronology_generator.wfEvent = true) ∧
    llm_processor.reasoningOutcome dpFail jpFail "no json here" = Option.none ∧
    llm_processor.create_chronology dpFail jpFail "no json here" [canonEvent] "case" =
      Except.ok ⟨[canonEvent], ⟨["Key parties involved: Ann"], [], []⟩⟩ := by
  obtain ⟨a, ha, hc⟩ :=
    C4_reasoning_fallback dpFail jpFail "no json here" [canonEvent] "case" rfl rfl rfl
  have hr : chronology_generator.analyze_chronology [canonEvent] =
      Except.ok ⟨["Key parties involved: Ann"], [], []⟩ := rfl
  rw [ha] at hr
  cases hr
  exact ⟨rfl, rfl, hc⟩

/-- C7 counterexample: passed the list `[tblEvLate, tblEvEarly]` (late date
first), the renderer produces the table whose rows are in *sorted* order —
it equals the order-preserving rendering of `[tblEvEarly, tblEvLate]` and
differs from the order-preserving rendering of the list as passed in,
refuting "the renderer does not re-sort". -/
theorem C7_counterexample :
    chronology_generator.generate_chronology_table [tblEvLate, tblEvEarly] true =
      chronology_generator.inputOrderTable [tblEvEarly, tblEvLate] true ∧
    chronology_generator.generate_chronology_table [tblEvLate, tblEvEarly] true ≠
      chronology_generator.inputOrderTable [tblEvLate, tblEvEarly] true := by
  refine ⟨rfl, ?_⟩
  decide

/-- C7 (amended): for every canonical event list, the markdown table
contains one data row per input event, but in the order of
`sort_events` applied to the list — the renderer re-sorts internally — so
the row order matches the order passed in exactly when the input is already
sorted (which it is at every pipeline call site). -/
theorem C7_renderer_rows_amended (l : List PyDict) (incl : Bool)
    (hwf : l.all chronology_generator.wfEvent = true) :
    ∃ rows,
      chronology_generator.rowsFor (chronology_generator.sort_events l) incl =
        Except.ok rows ∧
      rows.length = l.length ∧
      chronology_generator.generate_chronology_table l incl =
        Except.ok (chronology_generator.tableHead incl ++ String.join rows) ∧
      (chronology_generator.sort_events l = l →
        chronology_generator.generate_chronology_table l incl =
          chronology_generator.inputOrderTable l incl) := by
  have hwf3 : ∀ e ∈ chronology_generator.sort_events l, chronology_generator.wfParties e :=
    fun e he => (chronology_generator.wfEvent_split
      (List.all_eq_true.mp hwf e (chronology_generator.mem_sort_events he))).2.2
  obtain ⟨rows, hrows, hlen⟩ :=
    chronology_generator.rowsFor_ok (chronology_generator.sort_events l) incl hwf3
  refine ⟨rows, hrows, ?_, ?_, ?_⟩
  · rw [hlen]
    exact (List.perm_insertionSort chronology_generator.eventLe l).length_eq
  · unfold chronology_generator.generate_chronology_table
    rw [hrows]
  · intro hs
    unfold chronology_generator.generate_chronology_table chronology_generator.inputOrderTable
    rw [hs]

/-- C7 witness: on an already-sorted input the rendered table coincides with
the order-preserving rendering. -/
theorem C7_witness :
    ([tblEvEarly, tblEvLate].all chronology_generator.wfEvent = true) ∧
    chronology_generator.generate_chronology_table [tblEvEarly, tblEvLate] true =
      chronology_generator.inputOrderTable [tblEvEarly, tblEvLate] true := by
  obtain ⟨rows, h1, h2, h3, h4⟩ := C7_renderer_rows_amended [tblEvEarly, tblEvLate] true rfl
  exact ⟨rfl, h4 rfl⟩

/-- C8 counterexample: `ChronologyGenerator.generate_chronology` given one
event with a non-empty description and a null date returns an empty result
set (plus the `'Some events had invalid dates'` note): an Event whose date
is null is *not* retained through this chronology building, and exclusion is
not limited to empty descriptions. -/
theorem C8_counterexample :
    chronology_generator.ChronologyGenerator_generate_chronology dpFail [undatedMeeting] =
      Except.ok ⟨[], ⟨[], [], []⟩,
        "| Date | Description | Parties | Source | AI Observations |\n|---|---|---|---|---|\n",
        ["Some events had invalid dates"]⟩ ∧
    pyTruthy (dictGet undatedMeeting "description" PyVal.none) = true :=
  ⟨rfl, rfl⟩

/-- C8 (amended): in the LLM pipeline (`extract_events`' standardization
loop), the only normalized events excluded are those whose description is
falsy — every survivor has a truthy description, and every dict record whose
normalization has a truthy description is kept, irrespective of its date —
whereas `ChronologyGenerator.generate_chronology` additionally drops every
event whose standardized date is null. -/
theorem C8_exclusion_rule_amended (dp : String → Option Date) (nm : String)
    (items : List PyVal) :
    (∀ ev ∈ llm_processor.standardize_extracted dp nm items,
      pyTruthy (dictGet ev "description" PyVal.none) = true) ∧
    (∀ e, PyVal.dict e ∈ items →
      pyTruthy (dictGet (llm_processor.extract_event_details dp
        (llm_processor.massageRecord e nm)) "description" PyVal.none) = true →
      llm_processor.extract_event_details dp (llm_processor.massageRecord e nm) ∈
        llm_processor.standardize_extracted dp nm items) := by
  constructor
  · intro ev hev
    obtain ⟨item, hitem, hf⟩ := List.mem_filterMap.mp hev
    cases item with
    | dict e =>
      simp only at hf
      by_cases hd : pyTruthy (dictGet (llm_processor.extract_event_details dp
          (llm_processor.massageRecord e nm)) "description" PyVal.none) = true
      · simp [hd] at hf
        rw [← hf]
        exact hd
      · simp [hd] at hf
    | none => simp at hf
    | str s => simp at hf
    | int n => simp at hf
    | list xs => simp at hf
  · intro e he hdesc
    exact List.mem_filterMap.mpr ⟨PyVal.dict e, he, by simp [hdesc]⟩

/-- C8 witness: a dated-less record with a non-empty description survives the
pipeline's standardization loop with its date still null. -/
theorem C8_witness :
    pyTruthy (dictGet (llm_processor.extract_event_details dpFail
      (llm_processor.massageRecord [("description", PyVal.str "Kickoff")] "a.pdf"))
      "description" PyVal.none) = true ∧
    llm_processor.extract_event_details dpFail
        (llm_processor.massageRecord [("description", PyVal.str "Kickoff")] "a.pdf") ∈
      llm_processor.standardize_extracted dpFail "a.pdf"
        [PyVal.dict [("description", PyVal.str "Kickoff")]] ∧
    dictFind? (llm_processor.extract_event_details dpFail
      (llm_processor.massageRecord [("description", PyVal.str "Kickoff")] "a.pdf")) "date" =
      some PyVal.none := by
  refine ⟨rfl, ?_, rfl⟩
  exact (C8_exclusion_rule_amended dpFail "a.pdf" [PyVal.dict [("description",
    PyVal.str "Kickoff")]]).2 [("description", PyVal.str "Kickoff")]
    (List.mem_singleton_self _) rfl

/-- C3: the route's `try` block contains both the "no events" 400
`HTTPException` raise and the pipeline, and its blanket `except Exception`
re-wraps *everything* — including that 400 — as the generic 500 error.  So
on a batch from which no document yields events the user-visible error is
the generic wrapper (HTTP 500 with the stringified 400 inside its detail),
not a distinct `NoEventsError`-style 400; this is the raise-inside-`try`
slip the claim's wording does not account for.  A batch that yields one
event from some document succeeds. -/
theorem C3_no_events_error_is_wrapped :
    generate_chronology_route (fun _ _ => []) dpFail jpFail "model response" reqOneDoc =
      Except.error (PyErr.httpException 500
        "An error occurred while processing the documents: 400: No events could be extracted from any of the documents.") ∧
    (∃ resp, generate_chronology_route (fun _ _ => [canonEvent]) dpFail jpFail
      "model response" reqOneDoc = Except.ok resp) :=
  ⟨rfl, ⟨_, rfl⟩⟩
